import Mathlib

/-!
Verification of the pooling, layer-normalization and WASM API glue of this
onnxruntime excerpt, as a shallow embedding in Lean 4.

Sources embedded:
- src/onnxruntime/core/providers/cpu/nn/pool.cc            (pooling dispatch)
- src/onnxruntime/core/providers/webgpu/nn/layer_norm.cc   (NormalizeAxis, shader text)
- src/onnxruntime/wasm/api.cc                              (C ABI marshalling glue)

Code of the repository that the excerpt only calls (pool_functors.h window
tasks, PoolAttributes::SetOutputSize, the MLAS library entry point, the
webgpu ShaderHelper/SumVector helpers, onnxruntime::narrow) is not among the
source files; those definitions are modelled from the spec and are marked
`Modelled from the spec:` in their doc comments.

Machine integers (int64_t, size_t) are modelled as Nat/Int: the values
handled by this code (tensor dimensions, kernel sizes, strides, pads,
dilations) are non-negative and far below 2^63, so no wrap-around arithmetic
occurs on any path modelled here.  Tensor elements are modelled as rationals:
the claims under study are about which elements are reduced and where results
are written, not about floating-point rounding.
-/

/-! ## layer_norm.cc: NormalizeAxis (lines 13-19) -/

/-- The guard of the invalid-axis exception in `NormalizeAxis`
(layer_norm.cc line 15): `axis < -rank && axis >= rank`. -/
def normalizeAxisGuard (axis : Int) (tensor_rank : Nat) : Bool :=
  let rank : Int := (tensor_rank : Int)
  decide (axis < -rank) && decide (axis ≥ rank)

/-- `NormalizeAxis` from layer_norm.cc lines 13-19.  `ORT_THROW` is modelled
as `Except.error`; the result is the value handed to `onnxruntime::narrow`
(narrow itself lives outside the excerpt). -/
def NormalizeAxis (axis : Int) (tensor_rank : Nat) : Except String Int :=
  let rank : Int := (tensor_rank : Int)
  if normalizeAxisGuard axis tensor_rank then Except.error "invalid axis"
  else Except.ok (if axis < 0 then axis + rank else axis)

/-! ## wasm/api.cc: error state, CheckStatus, OrtGetLastError -/

/-- `OrtErrorCode` values used by api.cc. -/
inductive OrtErrorCode
  | ORT_OK
  | ORT_FAIL
  | ORT_INVALID_ARGUMENT
  | ORT_NO_SUCHFILE
  | ORT_RUNTIME_EXCEPTION
  | ORT_NOT_IMPLEMENTED
  deriving DecidableEq, Repr

/-- An `OrtStatusPtr`: `none` is a null status (success), `some (code, msg)`
a failure status carrying an error code and message. -/
abbrev OrtStatusVal := Option (OrtErrorCode × String)

/-- The file-scope error state of api.cc: `g_last_error_code` and
`g_last_error_message` (api.cc lines 25-26). -/
structure ApiState where
  g_last_error_code : OrtErrorCode
  g_last_error_message : String
  deriving DecidableEq, Repr

/-- `CheckStatus` (api.cc lines 43-54): routes a status into the global error
state and returns its code.  `Ort::Exception(msg, code).what()` returns the
message it was built from, so the stored message is the status's message. -/
def CheckStatus (status : OrtStatusVal) (st : ApiState) : OrtErrorCode × ApiState :=
  match status with
  | some (code, msg) =>
      (code, { g_last_error_code := code, g_last_error_message := msg })
  | none =>
      (OrtErrorCode.ORT_OK, { g_last_error_code := OrtErrorCode.ORT_OK, g_last_error_message := "" })

/-- `OrtGetLastError` (api.cc lines 107-111): returns the stored code, and the
stored message, as a null pointer (`none`) exactly when the string is empty. -/
def OrtGetLastError (st : ApiState) : OrtErrorCode × Option String :=
  (st.g_last_error_code,
   if st.g_last_error_message = "" then none else some st.g_last_error_message)

/-! ## Theorems for C5 and C7 -/

/-- C5: for every int64 axis value and every tensor rank, the condition
`axis < -rank && axis >= rank` guarding the invalid-axis exception in
`NormalizeAxis` is unsatisfiable, so `NormalizeAxis` never throws: every
axis, also an out-of-range one, is passed through, negative axes shifted by
the rank. -/
theorem normalizeAxis_never_throws (axis : Int) (tensor_rank : Nat) :
    normalizeAxisGuard axis tensor_rank = false ∧
    NormalizeAxis axis tensor_rank =
      Except.ok (if axis < 0 then axis + (tensor_rank : Int) else axis) := by
  have hg : normalizeAxisGuard axis tensor_rank = false := by
    simp only [normalizeAxisGuard, Bool.and_eq_false_iff, decide_eq_false_iff_not, not_lt, ge_iff_le]
    omega
  refine ⟨hg, ?_⟩
  simp [NormalizeAxis, hg]

/-- C7: after `CheckStatus` the global error state holds `ORT_OK` with an
empty message when the status was a success, and the failing status's code
and message otherwise; `OrtGetLastError` returns exactly the stored code and
message, with a null message pointer exactly when the stored message is
empty. -/
theorem checkStatus_lastError (st : ApiState) (c : OrtErrorCode) (m : String) :
    CheckStatus none st =
      (OrtErrorCode.ORT_OK, ⟨OrtErrorCode.ORT_OK, ""⟩) ∧
    CheckStatus (some (c, m)) st = (c, ⟨c, m⟩) ∧
    OrtGetLastError (CheckStatus none st).2 = (OrtErrorCode.ORT_OK, none) ∧
    OrtGetLastError (CheckStatus (some (c, m)) st).2 =
      (c, if m = "" then none else some m) := by
  refine ⟨rfl, rfl, rfl, ?_⟩
  by_cases hm : m = "" <;> simp [CheckStatus, OrtGetLastError, hm]

/-! ## wasm/api.cc: the handle-creating FFI functions

Each creator makes a sequence of underlying `Ort::GetApi()` calls, each routed
through `CheckStatus`; `RETURN_NULLPTR_IF_ERROR` returns a null handle at the
first call whose code is not `ORT_OK`.  The underlying library is external, so
its behaviour is an oracle: a list of the statuses the successive calls
return (an exhausted list yields null statuses, i.e. successes).  A result is
`(handle?, released, state)` where `released` records whether the auto-release
wrapper of the partially constructed principal resource fired. -/

/-- Pop the next status from the oracle. -/
def take1 : List OrtStatusVal → OrtStatusVal × List OrtStatusVal
  | [] => (none, [])
  | s :: r => (s, r)

/-- Whether a status carries the code `ORT_OK` (a null status does). -/
def statusOk : OrtStatusVal → Bool
  | none => true
  | some (c, _) => c = OrtErrorCode.ORT_OK

/-- Run `n` consecutive `RETURN_..._IF_ERROR` calls: each pops a status,
routes it through `CheckStatus`, and stops at the first failing code.
Returns whether all succeeded, with the final error state and oracle. -/
def runChecked : Nat → List OrtStatusVal → ApiState → Bool × ApiState × List OrtStatusVal
  | 0, o, st => (true, st, o)
  | n + 1, o, st =>
      let (s, o') := take1 o
      let (code, st') := CheckStatus s st
      if code = OrtErrorCode.ORT_OK then runChecked n o' st' else (false, st', o')

/-- All of the first `n` oracle statuses carry `ORT_OK`. -/
def allOkUpTo (o : List OrtStatusVal) (n : Nat) : Bool :=
  (List.range n).all fun i => statusOk (o.getD i none)

/-- Number of `RETURN_NULLPTR_IF_ERROR` calls in `OrtCreateSessionOptions`
after `CreateSessionOptions` itself (api.cc lines 127-165):
optionally `SetOptimizedModelFilePath`; `SetSessionGraphOptimizationLevel`;
`EnableCpuMemArena` or `DisableCpuMemArena`; `EnableMemPattern` or
`DisableMemPattern`; `SetSessionExecutionMode`; `EnableProfiling` or
`DisableProfiling`; optionally `SetSessionLogId`;
`SetSessionLogSeverityLevel`; `SetSessionLogVerbosityLevel`.
(The `ENABLE_EXTENSION_CUSTOM_OPS` build is not modelled.) -/
def sessionOptionsCallCount (hasOptimizedModelFilePath hasLogId : Bool) : Nat :=
  7 + (if hasOptimizedModelFilePath then 1 else 0) + (if hasLogId then 1 else 0)

/-- `OrtCreateSessionOptions` (api.cc lines 113-173): `CreateSessionOptions`,
then the configuration calls; the handle is registered for auto release after
creation and unregistered only on the all-succeeded return. -/
def OrtCreateSessionOptions (hasOptimizedModelFilePath hasLogId : Bool)
    (o : List OrtStatusVal) (st : ApiState) : Option Unit × Bool × ApiState :=
  let c := CheckStatus (take1 o).1 st
  if c.1 ≠ OrtErrorCode.ORT_OK then (none, false, c.2)
  else
    let r := runChecked (sessionOptionsCallCount hasOptimizedModelFilePath hasLogId) (take1 o).2 c.2
    if r.1 then (some (), false, r.2.1) else (none, true, r.2.1)

/-- `OrtCreateSession` (api.cc lines 200-213): with pthreads one
`DisablePerSessionThreads` call, otherwise `SetIntraOpNumThreads` and
`SetSessionExecutionMode`; then `CreateSessionFromArray`, whose out-handle is
returned exactly when its code is `ORT_OK`. -/
def OrtCreateSession (pthreads : Bool) (o : List OrtStatusVal) (st : ApiState) :
    Option Unit × ApiState :=
  let r := runChecked (if pthreads then 1 else 2) o st
  if ¬ r.1 then (none, r.2.1)
  else
    let c := CheckStatus (take1 r.2.2).1 r.2.1
    if c.1 = OrtErrorCode.ORT_OK then (some (), c.2) else (none, c.2)

/-- Number of `RETURN_NULLPTR_IF_ERROR` calls in `OrtCreateRunOptions` after
`CreateRunOptions` (api.cc lines 504-517): `RunOptionsSetRunLogSeverityLevel`;
`RunOptionsSetRunLogVerbosityLevel`; `RunOptionsSetTerminate` or
`RunOptionsUnsetTerminate`; optionally `RunOptionsSetRunTag`. -/
def runOptionsCallCount (hasTag : Bool) : Nat :=
  3 + (if hasTag then 1 else 0)

/-- `OrtCreateRunOptions` (api.cc lines 496-520). -/
def OrtCreateRunOptions (hasTag : Bool) (o : List OrtStatusVal) (st : ApiState) :
    Option Unit × Bool × ApiState :=
  let c := CheckStatus (take1 o).1 st
  if c.1 ≠ OrtErrorCode.ORT_OK then (none, false, c.2)
  else
    let r := runChecked (runOptionsCallCount hasTag) (take1 o).2 c.2
    if r.1 then (some (), false, r.2.1) else (none, true, r.2.1)

/-- `OrtCreateBinding` (api.cc lines 533-537): a single `CreateIoBinding`
call. -/
def OrtCreateBinding (o : List OrtStatusVal) (st : ApiState) : Option Unit × ApiState :=
  let c := CheckStatus (take1 o).1 st
  (if c.1 = OrtErrorCode.ORT_OK then some () else none, c.2)

/-! ## wasm/api.cc: OrtCreateTensor -/

/-- The `DataLocation` enum (api.cc lines 29-36). -/
def DATA_LOCATION_NONE : Nat := 0
/-- `DATA_LOCATION_CPU = 1`. -/
def DATA_LOCATION_CPU : Nat := 1
/-- `DATA_LOCATION_CPU_PINNED = 2`. -/
def DATA_LOCATION_CPU_PINNED : Nat := 2
/-- `DATA_LOCATION_TEXTURE = 3`. -/
def DATA_LOCATION_TEXTURE : Nat := 3
/-- `DATA_LOCATION_GPU_BUFFER = 4`. -/
def DATA_LOCATION_GPU_BUFFER : Nat := 4
/-- `DATA_LOCATION_ML_TENSOR = 5`. -/
def DATA_LOCATION_ML_TENSOR : Nat := 5

/-- The ONNX string element type tag. -/
def ONNX_TENSOR_ELEMENT_DATA_TYPE_STRING : Nat := 8

/-- The data locations `OrtCreateTensor` accepts (api.cc lines 362-365). -/
def validTensorLocation (loc : Nat) : Bool :=
  loc = DATA_LOCATION_CPU || loc = DATA_LOCATION_CPU_PINNED ||
  loc = DATA_LOCATION_GPU_BUFFER || loc = DATA_LOCATION_ML_TENSOR

/-- How the created tensor's memory was described: a string tensor goes
through the default allocator (always CPU); any other element type through an
`OrtMemoryInfo`, either a named device one or the CPU one (`none`). -/
inductive TensorAlloc
  | stringCpuDefaultAllocator
  | withMemoryInfo (deviceName : Option String)
  deriving DecidableEq, Repr

/-- `OrtCreateTensor` (api.cc lines 361-413).  The invalid-location branch
routes a fresh `ORT_INVALID_ARGUMENT` status through `CheckStatus` and
returns null.  The string branch calls `GetAllocatorWithDefaultOptions`,
`CreateTensorAsOrtValue` (handle registered for auto release) and
`FillStringTensor` (release fires if it fails).  Every other branch creates
an `OrtMemoryInfo` for the location and calls
`CreateTensorWithDataAsOrtValue`.  `released` records whether the
auto-release wrapper of a partially constructed tensor value fired. -/
def OrtCreateTensor (data_type loc : Nat) (o : List OrtStatusVal) (st : ApiState) :
    Option TensorAlloc × Bool × ApiState :=
  if ¬ validTensorLocation loc then
    (none, false,
     (CheckStatus (some (OrtErrorCode.ORT_INVALID_ARGUMENT, "Invalid data location: ")) st).2)
  else if data_type = ONNX_TENSOR_ELEMENT_DATA_TYPE_STRING then
    let r := runChecked 2 o st
    if ¬ r.1 then (none, false, r.2.1)
    else
      let c := CheckStatus (take1 r.2.2).1 r.2.1
      if c.1 = OrtErrorCode.ORT_OK then (some TensorAlloc.stringCpuDefaultAllocator, false, c.2)
      else (none, true, c.2)
  else
    let deviceName : Option String :=
      if loc = DATA_LOCATION_GPU_BUFFER then some "WebGPU_Buffer"
      else if loc = DATA_LOCATION_ML_TENSOR then some "WebNN_Tensor"
      else none
    let r := runChecked 2 o st
    if r.1 then (some (TensorAlloc.withMemoryInfo deviceName), false, r.2.1)
    else (none, false, r.2.1)

/-! ## Lemmas about the oracle-consuming helpers -/

theorem take1_eq (o : List OrtStatusVal) : take1 o = (o.getD 0 none, o.tail) := by
  cases o <;> rfl

theorem checkStatus_ok_iff (s : OrtStatusVal) (st : ApiState) :
    decide ((CheckStatus s st).1 = OrtErrorCode.ORT_OK) = statusOk s := by
  cases s with
  | none => rfl
  | some p => cases p with | mk c m => cases c <;> rfl

theorem allOkUpTo_nil (n : Nat) : allOkUpTo [] n = true := by
  simp [allOkUpTo, statusOk, List.getD]

theorem allOkUpTo_head_tail (o : List OrtStatusVal) (n : Nat) :
    allOkUpTo o (n + 1) = (statusOk (o.getD 0 none) && allOkUpTo o.tail n) := by
  cases o with
  | nil => simp [allOkUpTo_nil, statusOk, List.getD]
  | cons s r =>
      simp only [allOkUpTo, List.range_succ_eq_map, List.all_cons, List.all_map]
      rfl

theorem allOkUpTo_snoc (o : List OrtStatusVal) (n : Nat) :
    allOkUpTo o (n + 1) = (allOkUpTo o n && statusOk (o.getD n none)) := by
  simp [allOkUpTo, List.range_succ]

theorem allOkUpTo_cons (s : OrtStatusVal) (r : List OrtStatusVal) (n : Nat) :
    allOkUpTo (s :: r) (n + 1) = (statusOk s && allOkUpTo r n) := by
  simpa using allOkUpTo_head_tail (s :: r) n

theorem runChecked_fst (n : Nat) (o : List OrtStatusVal) (st : ApiState) :
    (runChecked n o st).1 = allOkUpTo o n := by
  induction n generalizing o st with
  | zero => simp [runChecked, allOkUpTo]
  | succ n ih =>
      cases o with
      | nil =>
          rw [allOkUpTo_nil]
          simp [runChecked, take1, CheckStatus, ih, allOkUpTo_nil]
      | cons s r =>
          rw [allOkUpTo_cons]
          cases s with
          | none => simp [runChecked, take1, CheckStatus, ih, statusOk]
          | some p =>
              obtain ⟨c, m⟩ := p
              by_cases hc : c = OrtErrorCode.ORT_OK
              · subst hc
                simp [runChecked, take1, CheckStatus, ih, statusOk]
              · simp [runChecked, take1, CheckStatus, statusOk, hc]

theorem runChecked_drop (n : Nat) (o : List OrtStatusVal) (st : ApiState)
    (h : (runChecked n o st).1 = true) : (runChecked n o st).2.2 = o.drop n := by
  induction n generalizing o st with
  | zero => simp [runChecked]
  | succ n ih =>
      cases o with
      | nil =>
          simp only [runChecked, take1, CheckStatus, eq_self_iff_true, if_true] at h ⊢
          rw [ih _ _ h]
          simp
      | cons s r =>
          cases s with
          | none =>
              simp only [runChecked, take1, CheckStatus, eq_self_iff_true, if_true] at h ⊢
              rw [ih _ _ h, List.drop_succ_cons]
          | some p =>
              obtain ⟨c, m⟩ := p
              by_cases hc : c = OrtErrorCode.ORT_OK
              · subst hc
                simp only [runChecked, take1, CheckStatus, eq_self_iff_true, if_true] at h ⊢
                rw [ih _ _ h, List.drop_succ_cons]
              · simp [runChecked, take1, CheckStatus, hc] at h

/-! ## C6: each handle creator returns non-null iff all its calls succeed -/

theorem createSessionOptions_spec (hOpt hLog : Bool) (o : List OrtStatusVal) (st : ApiState) :
    (OrtCreateSessionOptions hOpt hLog o st).1.isSome =
      allOkUpTo o (1 + sessionOptionsCallCount hOpt hLog) ∧
    (OrtCreateSessionOptions hOpt hLog o st).2.1 =
      (statusOk (o.getD 0 none) && ! allOkUpTo o.tail (sessionOptionsCallCount hOpt hLog)) := by
  rw [Nat.add_comm 1]
  cases o with
  | nil =>
      rw [allOkUpTo_nil]
      cases hall : allOkUpTo ([] : List OrtStatusVal) (sessionOptionsCallCount hOpt hLog) with
      | false => rw [allOkUpTo_nil] at hall; cases hall
      | true =>
          simp [OrtCreateSessionOptions, take1, CheckStatus, statusOk, runChecked_fst, hall,
                List.getD]
  | cons s r =>
      rw [allOkUpTo_cons]
      cases s with
      | none =>
          cases hall : allOkUpTo r (sessionOptionsCallCount hOpt hLog) with
          | false =>
              simp [OrtCreateSessionOptions, take1, CheckStatus, statusOk, runChecked_fst, hall]
          | true =>
              simp [OrtCreateSessionOptions, take1, CheckStatus, statusOk, runChecked_fst, hall]
      | some p =>
          obtain ⟨c, m⟩ := p
          by_cases hc : c = OrtErrorCode.ORT_OK
          · subst hc
            cases hall : allOkUpTo r (sessionOptionsCallCount hOpt hLog) with
            | false =>
                simp [OrtCreateSessionOptions, take1, CheckStatus, statusOk, runChecked_fst, hall]
            | true =>
                simp [OrtCreateSessionOptions, take1, CheckStatus, statusOk, runChecked_fst, hall]
          · simp [OrtCreateSessionOptions, take1, CheckStatus, statusOk, hc]

theorem createSession_spec (pthreads : Bool) (o : List OrtStatusVal) (st : ApiState) :
    (OrtCreateSession pthreads o st).1.isSome =
      allOkUpTo o ((if pthreads then 1 else 2) + 1) := by
  rw [allOkUpTo_snoc]
  have hrun := runChecked_fst (if pthreads then 1 else 2) o st
  cases hall : allOkUpTo o (if pthreads then 1 else 2) with
  | false =>
      rw [hall] at hrun
      simp [OrtCreateSession, hrun, hall]
  | true =>
      rw [hall] at hrun
      have hdrop := runChecked_drop (if pthreads then 1 else 2) o st hrun
      have hsucc : statusOk (o.getD (if pthreads then 1 else 2) none)
          = statusOk ((o.drop (if pthreads then 1 else 2)).getD 0 none) := by
        simp [List.getD, List.getElem?_drop]
      rw [hsucc, Bool.true_and]
      cases hd : o.drop (if pthreads then 1 else 2) with
      | nil => simp [OrtCreateSession, hrun, hdrop, hd, take1, CheckStatus, statusOk, List.getD]
      | cons s r =>
          cases s with
          | none => simp [OrtCreateSession, hrun, hdrop, hd, take1, CheckStatus, statusOk]
          | some p =>
              obtain ⟨c, m⟩ := p
              by_cases hc : c = OrtErrorCode.ORT_OK
              · subst hc
                simp [OrtCreateSession, hrun, hdrop, hd, take1, CheckStatus, statusOk]
              · simp [OrtCreateSession, hrun, hdrop, hd, take1, CheckStatus, statusOk, hc]

theorem createRunOptions_spec (hasTag : Bool) (o : List OrtStatusVal) (st : ApiState) :
    (OrtCreateRunOptions hasTag o st).1.isSome =
      allOkUpTo o (1 + runOptionsCallCount hasTag) ∧
    (OrtCreateRunOptions hasTag o st).2.1 =
      (statusOk (o.getD 0 none) && ! allOkUpTo o.tail (runOptionsCallCount hasTag)) := by
  rw [Nat.add_comm 1]
  cases o with
  | nil =>
      rw [allOkUpTo_nil]
      cases hall : allOkUpTo ([] : List OrtStatusVal) (runOptionsCallCount hasTag) with
      | false => rw [allOkUpTo_nil] at hall; cases hall
      | true =>
          simp [OrtCreateRunOptions, take1, CheckStatus, statusOk, runChecked_fst, hall,
                List.getD]
  | cons s r =>
      rw [allOkUpTo_cons]
      cases s with
      | none =>
          cases hall : allOkUpTo r (runOptionsCallCount hasTag) with
          | false =>
              simp [OrtCreateRunOptions, take1, CheckStatus, statusOk, runChecked_fst, hall]
          | true =>
              simp [OrtCreateRunOptions, take1, CheckStatus, statusOk, runChecked_fst, hall]
      | some p =>
          obtain ⟨c, m⟩ := p
          by_cases hc : c = OrtErrorCode.ORT_OK
          · subst hc
            cases hall : allOkUpTo r (runOptionsCallCount hasTag) with
            | false =>
                simp [OrtCreateRunOptions, take1, CheckStatus, statusOk, runChecked_fst, hall]
            | true =>
                simp [OrtCreateRunOptions, take1, CheckStatus, statusOk, runChecked_fst, hall]
          · simp [OrtCreateRunOptions, take1, CheckStatus, statusOk, hc]

theorem createBinding_spec (o : List OrtStatusVal) (st : ApiState) :
    (OrtCreateBinding o st).1.isSome = allOkUpTo o 1 := by
  have h1 : allOkUpTo o 1 = statusOk (o.getD 0 none) := by
    rw [show (1 : Nat) = 0 + 1 from rfl, allOkUpTo_snoc]
    simp [allOkUpTo]
  rw [h1]
  cases o with
  | nil => simp [OrtCreateBinding, take1, CheckStatus, statusOk, List.getD]
  | cons s r =>
      cases s with
      | none => simp [OrtCreateBinding, take1, CheckStatus, statusOk]
      | some p =>
          obtain ⟨c, m⟩ := p
          by_cases hc : c = OrtErrorCode.ORT_OK
          · subst hc; simp [OrtCreateBinding, take1, CheckStatus, statusOk]
          · simp [OrtCreateBinding, take1, CheckStatus, statusOk, hc]

theorem createTensor_spec (dt loc : Nat) (o : List OrtStatusVal) (st : ApiState) :
    (OrtCreateTensor dt loc o st).1.isSome =
      (validTensorLocation loc &&
        allOkUpTo o (if dt = ONNX_TENSOR_ELEMENT_DATA_TYPE_STRING then 3 else 2)) ∧
    (OrtCreateTensor dt loc o st).2.1 =
      (validTensorLocation loc && decide (dt = ONNX_TENSOR_ELEMENT_DATA_TYPE_STRING) &&
        allOkUpTo o 2 && ! statusOk (o.getD 2 none)) := by
  by_cases hv : validTensorLocation loc
  · by_cases hdt : dt = ONNX_TENSOR_ELEMENT_DATA_TYPE_STRING
    · subst hdt
      have hrun := runChecked_fst 2 o st
      cases hall : allOkUpTo o 2 with
      | false =>
          rw [hall] at hrun
          have h3 : allOkUpTo o 3 = false := by
            rw [show (3 : Nat) = 2 + 1 from rfl, allOkUpTo_snoc, hall, Bool.false_and]
          simp [OrtCreateTensor, hv, hrun, hall, h3]
      | true =>
          rw [hall] at hrun
          have hdrop := runChecked_drop 2 o st hrun
          have h3 : allOkUpTo o 3 = statusOk (o.getD 2 none) := by
            rw [show (3 : Nat) = 2 + 1 from rfl, allOkUpTo_snoc, hall, Bool.true_and]
          have hsucc : statusOk (o.getD 2 none) = statusOk ((o.drop 2).getD 0 none) := by
            simp [List.getD, List.getElem?_drop]
          cases hd : o.drop 2 with
          | nil =>
              have h2 : o[2]? = none := by
                have h' := List.getElem?_drop o 2 0
                rw [hd] at h'
                simpa using h'.symm
              simp [OrtCreateTensor, hv, hrun, hdrop, hd, hall, h3, hsucc, take1, CheckStatus,
                    statusOk, List.getD, h2]
          | cons s r =>
              have h2 : o[2]? = some s := by
                have h' := List.getElem?_drop o 2 0
                rw [hd] at h'
                simpa using h'.symm
              cases s with
              | none =>
                  simp [OrtCreateTensor, hv, hrun, hdrop, hd, hall, h3, hsucc, take1,
                        CheckStatus, statusOk, List.getD, h2]
              | some p =>
                  obtain ⟨c, m⟩ := p
                  by_cases hc : c = OrtErrorCode.ORT_OK
                  · subst hc
                    simp [OrtCreateTensor, hv, hrun, hdrop, hd, hall, h3, hsucc, take1,
                          CheckStatus, statusOk, List.getD, h2]
                  · simp [OrtCreateTensor, hv, hrun, hdrop, hd, hall, h3, hsucc, take1,
                          CheckStatus, statusOk, hc, List.getD, h2]
    · have hrun := runChecked_fst 2 o st
      cases hall : allOkUpTo o 2 with
      | false =>
          rw [hall] at hrun
          simp [OrtCreateTensor, hv, hdt, hrun, hall]
      | true =>
          rw [hall] at hrun
          simp [OrtCreateTensor, hv, hdt, hrun, hall]
  · have hv' : validTensorLocation loc = false := Bool.eq_false_iff.mpr hv
    simp [OrtCreateTensor, hv', hv]

/-- C6: every handle-creating FFI function of api.cc (`OrtCreateSessionOptions`,
`OrtCreateSession`, `OrtCreateTensor`, `OrtCreateRunOptions`, `OrtCreateBinding`)
returns a non-null handle exactly when every status routed through `CheckStatus`
on its path carries `ORT_OK` (for `OrtCreateTensor` additionally only for an
accepted data location, the rejection itself being a failing status routed
through `CheckStatus`), and returns null otherwise; the auto-release wrapper of
the partially constructed principal handle fires exactly when creation
succeeded but a later configuration call failed. -/
theorem createHandle_nonNull_iff_allOk :
    (∀ (hOpt hLog : Bool) (o : List OrtStatusVal) (st : ApiState),
      (OrtCreateSessionOptions hOpt hLog o st).1.isSome =
        allOkUpTo o (1 + sessionOptionsCallCount hOpt hLog) ∧
      (OrtCreateSessionOptions hOpt hLog o st).2.1 =
        (statusOk (o.getD 0 none) && ! allOkUpTo o.tail (sessionOptionsCallCount hOpt hLog))) ∧
    (∀ (pthreads : Bool) (o : List OrtStatusVal) (st : ApiState),
      (OrtCreateSession pthreads o st).1.isSome =
        allOkUpTo o ((if pthreads then 1 else 2) + 1)) ∧
    (∀ (dt loc : Nat) (o : List OrtStatusVal) (st : ApiState),
      (OrtCreateTensor dt loc o st).1.isSome =
        (validTensorLocation loc &&
          allOkUpTo o (if dt = ONNX_TENSOR_ELEMENT_DATA_TYPE_STRING then 3 else 2)) ∧
      (OrtCreateTensor dt loc o st).2.1 =
        (validTensorLocation loc && decide (dt = ONNX_TENSOR_ELEMENT_DATA_TYPE_STRING) &&
          allOkUpTo o 2 && ! statusOk (o.getD 2 none))) ∧
    (∀ (hasTag : Bool) (o : List OrtStatusVal) (st : ApiState),
      (OrtCreateRunOptions hasTag o st).1.isSome =
        allOkUpTo o (1 + runOptionsCallCount hasTag) ∧
      (OrtCreateRunOptions hasTag o st).2.1 =
        (statusOk (o.getD 0 none) && ! allOkUpTo o.tail (runOptionsCallCount hasTag))) ∧
    (∀ (o : List OrtStatusVal) (st : ApiState),
      (OrtCreateBinding o st).1.isSome = allOkUpTo o 1) :=
  ⟨createSessionOptions_spec, createSession_spec, createTensor_spec,
   createRunOptions_spec, createBinding_spec⟩

/-! ## C10: OrtCreateTensor's data-location handling -/

/-- C10 counterexample: the claim says the `data_location` argument is ignored
for string element type, but at string element type with
`DATA_LOCATION_NONE` no tensor is created: the location check precedes the
string branch, so `OrtCreateTensor` returns null and records
`ORT_INVALID_ARGUMENT` even though every underlying call would succeed. -/
theorem createTensor_string_invalid_location_rejected :
    (OrtCreateTensor ONNX_TENSOR_ELEMENT_DATA_TYPE_STRING DATA_LOCATION_NONE []
        ⟨OrtErrorCode.ORT_OK, ""⟩).1 = none ∧
    (OrtCreateTensor ONNX_TENSOR_ELEMENT_DATA_TYPE_STRING DATA_LOCATION_NONE []
        ⟨OrtErrorCode.ORT_OK, ""⟩).2.2 =
      ⟨OrtErrorCode.ORT_INVALID_ARGUMENT, "Invalid data location: "⟩ :=
  ⟨rfl, rfl⟩

/-- C10 (amended): for every data_location outside the four accepted values,
`OrtCreateTensor` returns null and records `ORT_INVALID_ARGUMENT` as the last
error without creating any tensor; and for string element type with an
accepted data location the location is otherwise ignored, the tensor being
created on CPU via the default allocator. -/
theorem createTensor_location_handling :
    (∀ (dt loc : Nat) (o : List OrtStatusVal) (st : ApiState),
      validTensorLocation loc = false →
      OrtCreateTensor dt loc o st =
        (none, false, ⟨OrtErrorCode.ORT_INVALID_ARGUMENT, "Invalid data location: "⟩)) ∧
    (∀ (loc loc' : Nat) (o : List OrtStatusVal) (st : ApiState),
      validTensorLocation loc = true → validTensorLocation loc' = true →
      OrtCreateTensor ONNX_TENSOR_ELEMENT_DATA_TYPE_STRING loc o st =
        OrtCreateTensor ONNX_TENSOR_ELEMENT_DATA_TYPE_STRING loc' o st) ∧
    (∀ (loc : Nat) (o : List OrtStatusVal) (st : ApiState),
      validTensorLocation loc = true →
      (OrtCreateTensor ONNX_TENSOR_ELEMENT_DATA_TYPE_STRING loc o st).1 =
        if allOkUpTo o 3 then some TensorAlloc.stringCpuDefaultAllocator else none) := by
  refine ⟨?_, ?_, ?_⟩
  · intro dt loc o st h
    simp [OrtCreateTensor, h, CheckStatus]
  · intro loc loc' o st h h'
    simp [OrtCreateTensor, h, h']
  · intro loc o st h
    have hrun := runChecked_fst 2 o st
    cases hall : allOkUpTo o 2 with
    | false =>
        rw [hall] at hrun
        have h3 : allOkUpTo o 3 = false := by
          rw [show (3 : Nat) = 2 + 1 from rfl, allOkUpTo_snoc, hall, Bool.false_and]
        simp [OrtCreateTensor, h, hrun, h3]
    | true =>
        rw [hall] at hrun
        have hdrop := runChecked_drop 2 o st hrun
        have h3 : allOkUpTo o 3 = statusOk (o.getD 2 none) := by
          rw [show (3 : Nat) = 2 + 1 from rfl, allOkUpTo_snoc, hall, Bool.true_and]
        cases hd : o.drop 2 with
        | nil =>
            have h2 : o[2]? = none := by
              have h' := List.getElem?_drop o 2 0
              rw [hd] at h'
              simpa using h'.symm
            simp [OrtCreateTensor, h, hrun, hdrop, hd, h3, take1, CheckStatus, statusOk,
                  List.getD, h2]
        | cons s r =>
            have h2 : o[2]? = some s := by
              have h' := List.getElem?_drop o 2 0
              rw [hd] at h'
              simpa using h'.symm
            cases s with
            | none =>
                simp [OrtCreateTensor, h, hrun, hdrop, hd, h3, take1, CheckStatus, statusOk,
                      List.getD, h2]
            | some p =>
                obtain ⟨c, m⟩ := p
                by_cases hc : c = OrtErrorCode.ORT_OK
                · subst hc
                  simp [OrtCreateTensor, h, hrun, hdrop, hd, h3, take1, CheckStatus, statusOk,
                        List.getD, h2]
                · simp [OrtCreateTensor, h, hrun, hdrop, hd, h3, take1, CheckStatus, statusOk,
                        hc, List.getD, h2]

/-- C10 witness: the amended statement at the concrete inputs
`(data_type 1, location 0)`, string type at locations 1 and 4, and string
type at location 1 with an all-success oracle. -/
theorem createTensor_location_handling_witness :
    OrtCreateTensor 1 DATA_LOCATION_NONE [] ⟨OrtErrorCode.ORT_OK, ""⟩ =
      (none, false, ⟨OrtErrorCode.ORT_INVALID_ARGUMENT, "Invalid data location: "⟩) ∧
    OrtCreateTensor ONNX_TENSOR_ELEMENT_DATA_TYPE_STRING DATA_LOCATION_CPU []
        ⟨OrtErrorCode.ORT_OK, ""⟩ =
      OrtCreateTensor ONNX_TENSOR_ELEMENT_DATA_TYPE_STRING DATA_LOCATION_GPU_BUFFER []
        ⟨OrtErrorCode.ORT_OK, ""⟩ ∧
    (OrtCreateTensor ONNX_TENSOR_ELEMENT_DATA_TYPE_STRING DATA_LOCATION_CPU []
        ⟨OrtErrorCode.ORT_OK, ""⟩).1 = some TensorAlloc.stringCpuDefaultAllocator := by
  refine ⟨createTensor_location_handling.1 1 DATA_LOCATION_NONE [] ⟨OrtErrorCode.ORT_OK, ""⟩ rfl,
    createTensor_location_handling.2.1 DATA_LOCATION_CPU DATA_LOCATION_GPU_BUFFER []
      ⟨OrtErrorCode.ORT_OK, ""⟩ rfl rfl, ?_⟩
  have h := createTensor_location_handling.2.2 DATA_LOCATION_CPU [] ⟨OrtErrorCode.ORT_OK, ""⟩ rfl
  simpa using h

/-! ## layer_norm.cc: LayerNormProgram::GenerateShaderCode (lines 21-67) -/

/-- The flag fields of `LayerNormProgram` that `GenerateShaderCode` reads. -/
structure LayerNormFlags where
  has_bias_ : Bool
  is_fp16_ : Bool
  simplified_ : Bool
  has_mean_output_ : Bool
  has_inv_std_dev_output_ : Bool
  deriving DecidableEq, Repr

/-- Modelled from the spec: `SumVector` (webgpu_utils.h, outside the excerpt)
deterministically emits WGSL text summing the components of a vector value;
for one component the value itself. -/
def SumVector (x : String) (components : Nat) : String :=
  if components = 4 then
    "(" ++ x ++ ".x + " ++ x ++ ".y + " ++ x ++ ".z + " ++ x ++ ".w" ++ ")"
  else if components = 2 then
    "(" ++ x ++ ".x + " ++ x ++ ".y" ++ ")"
  else x

/-- Modelled from the spec: `ShaderHelper::GuardAgainstOutOfBoundsWorkgroupSizes`
(shader_helper.h, outside the excerpt) deterministically emits an early-return
guard on `global_idx` against the given size expression. -/
def GuardAgainstOutOfBoundsWorkgroupSizes (size : String) : String :=
  "  if (global_idx >= " ++ size ++ ") \x7b return; \x7d\n"

/-- The text and variable declarations `GenerateShaderCode` emits: the names
passed to `AddInput`/`AddOutput`, the `AdditionalImplementation` stream, and
the `MainFunctionBody` stream. -/
structure ShaderCode where
  inputs : List String
  outputs : List String
  additionalImpl : String
  mainBody : String
  deriving DecidableEq, Repr

/-- `LayerNormProgram::GenerateShaderCode` (layer_norm.cc lines 21-67),
transcribed statement by statement; `components` is the input's component
count (`x.NumComponents()`). -/
def GenerateShaderCode (p : LayerNormFlags) (components : Nat) : ShaderCode :=
  let inputs := ["x", "scale"] ++ (if p.has_bias_ then ["bias"] else [])
  let outputs := ["y"] ++ (if p.has_mean_output_ then ["mean_output"] else []) ++
    (if p.has_inv_std_dev_output_ then ["inv_std_dev_output"] else [])
  let bias := if p.has_bias_ then " + bias[j]" else ""
  let simpl1 := if p.simplified_ then "" else " - mean * mean"
  let simpl2 := if p.simplified_ then "" else " - mean"
  let additionalImpl :=
    "alias element_t = " ++ (if p.is_fp16_ then "f16;\n" else "f32;\n") ++
    "alias f32_val_t = " ++
    (if components = 4 then "vec4<f32>" else if components = 2 then "vec2<f32>" else "f32") ++
    ";\n"
  let mainBody :=
    GuardAgainstOutOfBoundsWorkgroupSizes "uniforms.norm_count" ++
    "let offset = global_idx * uniforms.norm_size_vectorized;\n" ++
    "var mean_vector = f32_val_t(0);\n" ++
    "var mean_square_vector = f32_val_t(0);\n" ++
    "for (var h: u32 = 0u; h < uniforms.norm_size_vectorized; h++) \x7b\n" ++
    "   let value = f32_val_t(x[h + offset]);\n" ++
    "   mean_vector += value;\n" ++
    "   mean_square_vector += value * value;\n" ++
    "\x7d\n" ++
    "let mean = " ++ SumVector "mean_vector" components ++ " / f32(uniforms.norm_size);\n" ++
    "let inv_std_dev = inverseSqrt(" ++ SumVector "mean_square_vector" components ++
    " / f32(uniforms.norm_size)" ++ simpl1 ++ " + uniforms.epsilon);\n" ++
    "for (var j: u32 = 0; j < uniforms.norm_size_vectorized; j++) \x7b\n" ++
    "   let f32input = f32_val_t(x[j + offset]);\n" ++
    "   let f32scale = f32_val_t(scale[j]);\n" ++
    "   y[j + offset] =  x_value_t((f32input" ++ simpl2 ++ ") * inv_std_dev * f32scale)" ++
    bias ++ ";\n" ++
    "\x7d\n" ++
    (if p.has_mean_output_ then "mean_output[global_idx] = mean;\n" else "") ++
    (if p.has_inv_std_dev_output_ then "inv_std_dev_output[global_idx] = inv_std_dev;\n" else "")
  { inputs := inputs, outputs := outputs, additionalImpl := additionalImpl, mainBody := mainBody }

/-- Whether `pat` occurs as a contiguous subsequence of `s`. -/
def hasSub (pat : List Char) : List Char → Bool
  | [] => pat.isEmpty
  | c :: rest => pat.isPrefixOf (c :: rest) || hasSub pat rest

set_option maxRecDepth 40000 in
/-- C8: `GenerateShaderCode` is a pure function of the program flags and the
component count, so equal flags and component count give character-for-character
identical shader text; the simplified variant's main body nowhere contains the
mean-subtraction text ` - mean`, while the non-simplified variant's main body
contains ` - mean * mean`. -/
theorem generateShaderCode_deterministic :
    (∀ (p₁ p₂ : LayerNormFlags) (c₁ c₂ : Nat), p₁ = p₂ → c₁ = c₂ →
      GenerateShaderCode p₁ c₁ = GenerateShaderCode p₂ c₂) ∧
    (∀ (p : LayerNormFlags) (c : Nat), p.simplified_ = true →
      hasSub " - mean".data (GenerateShaderCode p c).mainBody.data = false) ∧
    (∀ (p : LayerNormFlags) (c : Nat), p.simplified_ = false →
      hasSub " - mean * mean".data (GenerateShaderCode p c).mainBody.data = true) := by
  refine ⟨?_, ?_, ?_⟩
  · intro p₁ p₂ c₁ c₂ hp hc
    rw [hp, hc]
  · intro p c h
    obtain ⟨b1, b2, b3, b4, b5⟩ := p
    simp only at h
    subst h
    by_cases hc4 : c = 4
    · subst hc4
      cases b1 <;> cases b4 <;> cases b5 <;> rfl
    · by_cases hc2 : c = 2
      · subst hc2
        cases b1 <;> cases b4 <;> cases b5 <;> rfl
      · have hs1 : SumVector "mean_vector" c = "mean_vector" := by
          simp [SumVector, hc4, hc2]
        have hs2 : SumVector "mean_square_vector" c = "mean_square_vector" := by
          simp [SumVector, hc4, hc2]
        cases b1 <;> cases b4 <;> cases b5 <;>
          simp only [GenerateShaderCode, hs1, hs2] <;> rfl
  · intro p c h
    obtain ⟨b1, b2, b3, b4, b5⟩ := p
    simp only at h
    subst h
    by_cases hc4 : c = 4
    · subst hc4
      cases b1 <;> cases b4 <;> cases b5 <;> rfl
    · by_cases hc2 : c = 2
      · subst hc2
        cases b1 <;> cases b4 <;> cases b5 <;> rfl
      · have hs1 : SumVector "mean_vector" c = "mean_vector" := by
          simp [SumVector, hc4, hc2]
        have hs2 : SumVector "mean_square_vector" c = "mean_square_vector" := by
          simp [SumVector, hc4, hc2]
        cases b1 <;> cases b4 <;> cases b5 <;>
          simp only [GenerateShaderCode, hs1, hs2] <;> rfl

/-- C8 witness: the determinism, omission and inclusion statements at
concrete flags and component count 4. -/
theorem generateShaderCode_deterministic_witness :
    GenerateShaderCode ⟨true, false, false, true, true⟩ 4 =
      GenerateShaderCode ⟨true, false, false, true, true⟩ 4 ∧
    hasSub " - mean".data
      (GenerateShaderCode ⟨true, false, true, true, true⟩ 4).mainBody.data = false ∧
    hasSub " - mean * mean".data
      (GenerateShaderCode ⟨true, false, false, true, true⟩ 4).mainBody.data = true :=
  ⟨generateShaderCode_deterministic.1 ⟨true, false, false, true, true⟩
      ⟨true, false, false, true, true⟩ 4 4 rfl rfl,
   generateShaderCode_deterministic.2.1 ⟨true, false, true, true, true⟩ 4 rfl,
   generateShaderCode_deterministic.2.2 ⟨true, false, false, true, true⟩ 4 rfl⟩

/-! ## pool.cc: data model

Tensors are flat row-major arrays, accessed through a total function
`Nat → ℚ`; shapes are `[N, C, spatial...]` lists.  The window tasks of
pool_functors.h and `PoolAttributes::SetOutputSize` are outside the excerpt
and are modelled from the spec; the dispatch around them (rank checks,
kernel-size switch, slice offsets, the per-channel fan-out) is transcribed
from pool.cc. -/

/-- The pooling attributes (`PoolAttributes`, outside the excerpt) as
pool.cc reads them.  ONNX attribute values here are non-negative, so `Nat`;
`pads` is `[begin_1..begin_n, end_1..end_n]`. -/
structure PoolAttrs where
  global_pooling : Bool
  kernel_shape : List Nat
  pads : List Nat
  strides : List Nat
  dilations : List Nat
  count_include_pad : Bool
  storage_order : Nat
  deriving DecidableEq, Repr

/-- Modelled from the spec: the `PoolBase` stride accessors `stride_h()`,
`stride_w()`, `stride_d()` (pool.h, outside the excerpt): stride 1 under
global pooling, otherwise the strides attribute (default 1). -/
def PoolAttrs.strideAt (a : PoolAttrs) (i : Nat) : Nat :=
  if a.global_pooling then 1 else a.strides.getD i 1

/-- Modelled from the spec: one output spatial extent of
`PoolAttributes::SetOutputSize` (outside the excerpt), the standard
sliding-window count: floor((in + padBegin + padEnd - (dilation*(kernel-1)+1)) / stride) + 1. -/
def outSpatialDim (inDim k s pB pE d : Nat) : Nat :=
  (inDim + pB + pE - (d * (k - 1) + 1)) / s + 1

/-- Modelled from the spec: `PoolAttributes::SetOutputSize` (outside the
excerpt, explicit-pad mode): `[N, C]` followed by the per-dimension window
counts, all 1 under global pooling. -/
def setOutputSize (a : PoolAttrs) (shape : List Nat) (pads : List Nat) : List Nat :=
  shape.take 2 ++
    (if a.global_pooling then (shape.drop 2).map fun _ => 1
     else (List.range a.kernel_shape.length).map fun i =>
       outSpatialDim (shape.getD (2 + i) 0) (a.kernel_shape.getD i 1) (a.strideAt i)
         (pads.getD i 0) (pads.getD (i + a.kernel_shape.length) 0) (a.dilations.getD i 1))

/-- Modelled from the spec: the in-bounds input coordinates of one spatial
dimension's window at output position `p`: the positions
`p*stride - padBegin + j*dilation` for `j < kernel`, clipped to `[0, dim)`. -/
def windowCoords (dim k s pB d p : Nat) : List Nat :=
  (List.range k).filterMap fun j =>
    let h : Int := ((p * s + j * d : Nat) : Int) - (pB : Int)
    if 0 ≤ h ∧ h < (dim : Int) then some h.toNat else none

/-- The geometric parameters one per-channel window task receives from the
dispatch (pool.cc lines 67-105 and the analogous V8/V18/V19 bodies): input
extents, pooled extents, kernel, strides, begin pads and dilations, with the
unused trailing dimensions fixed at extent 1. -/
structure TaskParams where
  H : Nat
  W : Nat
  D : Nat
  PH : Nat
  PW : Nat
  PD : Nat
  kh : Nat
  kw : Nat
  kd : Nat
  sh : Nat
  sw : Nat
  sd : Nat
  ph0 : Nat
  pw0 : Nat
  pd0 : Nat
  dh : Nat
  dw : Nat
  dd : Nat
  deriving DecidableEq, Repr

/-- `x_step = height * width * depth` (pool.cc line 76). -/
def TaskParams.x_step (t : TaskParams) : Nat := t.H * t.W * t.D

/-- `y_step = pooled_height * pooled_width * pooled_depth` (pool.cc line 77). -/
def TaskParams.y_step (t : TaskParams) : Nat := t.PH * t.PW * t.PD

/-- The in-channel flat indices of the window at output position
`(ph, pw, pd)`. -/
def TaskParams.window (t : TaskParams) (ph pw pd : Nat) : List Nat :=
  (windowCoords t.H t.kh t.sh t.ph0 t.dh ph).flatMap fun h =>
    (windowCoords t.W t.kw t.sw t.pw0 t.dw pw).flatMap fun w =>
      (windowCoords t.D t.kd t.sd t.pd0 t.dd pd).map fun d => (h * t.W + w) * t.D + d

/-- The maximum of a window's elements. -/
def maxReduce : List ℚ → ℚ
  | [] => 0
  | a :: r => r.foldl max a

/-- The arithmetic mean of a window's elements. -/
def avgReduce (l : List ℚ) : ℚ := l.sum / (l.length : ℚ)

/-- The p-norm of a window's elements: `root` stands for the p-th root
(`std::pow(s, 1/p)`), applied to the sum of p-th powers of absolute values. -/
def lpReduce (root : ℚ → ℚ) (p : Nat) (l : List ℚ) : ℚ :=
  root ((l.map fun x => |x| ^ p).sum)

/-- Modelled from the spec: the per-channel window task (pool_functors.h,
outside the excerpt) computes at each output position the reduction of the
in-bounds window elements, reading its channel slice through `xc`. -/
def taskValue (red : List ℚ → ℚ) (t : TaskParams) (xc : Nat → ℚ) (ph pw pd : Nat) : ℚ :=
  red ((t.window ph pw pd).map xc)

/-- The output slice one channel's task writes, in row-major order of the
pooled coordinates. -/
def taskSlice (red : List ℚ → ℚ) (t : TaskParams) (xc : Nat → ℚ) : List ℚ :=
  (List.range t.PH).flatMap fun ph =>
    (List.range t.PW).flatMap fun pw =>
      (List.range t.PD).map fun pd => taskValue red t xc ph pw pd

/-- `RunLoop`/`ThreadPool::TryParallelFor` (pool.cc lines 39-42) in program
order: channel `c` of the `total = N*C` channels contributes the slice
`sliceOf c`, laid out consecutively. -/
def RunLoopSeq (total : Nat) (sliceOf : Nat → List ℚ) : List ℚ :=
  (List.range total).flatMap sliceOf

/-- A failed `Status`: `ORT_RETURN_IF_NOT` produces a generic failure,
the kernel-size switch default an `INVALID_ARGUMENT`. -/
inductive PoolErr
  | fail
  | invalidArgument
  deriving DecidableEq, Repr

/-- A successful hand-rolled pooling computation: which task dimensionality
the switch dispatched, the output shape, and the output data. -/
structure PoolOk where
  taskDim : Nat
  dims : List Nat
  data : List ℚ
  deriving DecidableEq, Repr

/-- The task parameters the dispatch constructs (pool.cc lines 67-77 and the
switch cases): extents beyond the kernel rank stay 1, exactly as
`width`/`depth`/`pooled_width`/`pooled_depth` do in the source. -/
def handRolledParams (kernel pads : List Nat) (strideAt dilAt : Nat → Nat)
    (shape output_dims : List Nat) : TaskParams :=
  { H := shape.getD 2 1
    W := if kernel.length > 1 then shape.getD 3 1 else 1
    D := if kernel.length > 2 then shape.getD 4 1 else 1
    PH := output_dims.getD 2 1
    PW := if kernel.length > 1 then output_dims.getD 3 1 else 1
    PD := if kernel.length > 2 then output_dims.getD 4 1 else 1
    kh := kernel.getD 0 1
    kw := if kernel.length > 1 then kernel.getD 1 1 else 1
    kd := if kernel.length > 2 then kernel.getD 2 1 else 1
    sh := strideAt 0
    sw := if kernel.length > 1 then strideAt 1 else 1
    sd := if kernel.length > 2 then strideAt 2 else 1
    ph0 := pads.getD 0 0
    pw0 := if kernel.length > 1 then pads.getD 1 0 else 0
    pd0 := if kernel.length > 2 then pads.getD 2 0 else 0
    dh := dilAt 0
    dw := if kernel.length > 1 then dilAt 1 else 1
    dd := if kernel.length > 2 then dilAt 2 else 1 }

/-- The common hand-rolled body (pool.cc lines 50-107, shared shape-wise by
`MaxPoolV8::ComputeImpl`, `AveragePoolV19<T>::Compute` and
`LpPoolV18<T>::Compute`): rank check, output-size computation, kernel-size
switch, per-channel fan-out over `N*C` slices of `x_step`/`y_step`
elements. -/
def handRolledCompute (red : List ℚ → ℚ) (dilAt : Nat → Nat) (a : PoolAttrs)
    (kernel pads : List Nat) (shape : List Nat) (X : Nat → ℚ) : Except PoolErr PoolOk :=
  if shape.length < 3 then .error .fail
  else
    let output_dims := setOutputSize a shape pads
    let t := handRolledParams kernel pads a.strideAt dilAt shape output_dims
    if kernel.length = 1 ∨ kernel.length = 2 ∨ kernel.length = 3 then
      .ok { taskDim := kernel.length
            dims := output_dims
            data := RunLoopSeq (shape.getD 0 0 * shape.getD 1 0)
              fun c => taskSlice red t fun i => X (c * t.x_step + i) }
    else .error .invalidArgument

/-- `Pool<T, PoolType>::Compute` (pool.cc lines 45-108): under
`global_pooling` the kernel becomes the input's spatial extents and the pads
become 0 (lines 55-59); the tasks take no dilations. -/
def poolCompute (red : List ℚ → ℚ) (a : PoolAttrs) (shape : List Nat) (X : Nat → ℚ) :
    Except PoolErr PoolOk :=
  let kernel := if a.global_pooling then shape.drop 2 else a.kernel_shape
  let pads := if a.global_pooling then List.replicate (shape.drop 2).length 0 else a.pads
  handRolledCompute red (fun _ => 1) a kernel pads shape X

/-- `AveragePoolV19<T>::Compute` (pool.cc lines 253-325): `need_dilation` is
computed (lines 255-258) but never used; the body always runs the
hand-rolled loop, with the dilations attribute. -/
def averagePoolV19Compute (a : PoolAttrs) (shape : List Nat) (X : Nat → ℚ) :
    Except PoolErr PoolOk :=
  handRolledCompute avgReduce (fun i => a.dilations.getD i 1) a a.kernel_shape a.pads shape X

/-- `LpPoolV18<T>::Compute` (pool.cc lines 328-400): like `AveragePoolV19`,
always the hand-rolled loop, reducing by p-norm with the member `p_`. -/
def lpPoolV18Compute (root : ℚ → ℚ) (p : Nat) (a : PoolAttrs) (shape : List Nat)
    (X : Nat → ℚ) : Except PoolErr PoolOk :=
  handRolledCompute (lpReduce root p) (fun i => a.dilations.getD i 1) a a.kernel_shape a.pads
    shape X

/-! ## Indexing lemmas for the concatenated per-channel layout -/

theorem flatten_lt {a A b B : Nat} (ha : a < A) (hb : b < B) : a * B + b < A * B :=
  calc a * B + b < a * B + B := Nat.add_lt_add_left hb _
    _ = (a + 1) * B := (Nat.succ_mul a B).symm
    _ ≤ A * B := Nat.mul_le_mul_right B ha

theorem length_flatMap_const {α : Type} (f : Nat → List α) (m n : Nat)
    (hf : ∀ j, (f j).length = m) : ((List.range n).flatMap f).length = n * m := by
  induction n with
  | zero => simp
  | succ n ih =>
      rw [List.range_succ, List.flatMap_append, List.length_append, ih]
      simp [hf, Nat.succ_mul]

theorem flatMap_range_getElem? {α : Type} (f : Nat → List α) (m n i r : Nat)
    (hf : ∀ j, (f j).length = m) (hi : i < n) (hr : r < m) :
    ((List.range n).flatMap f)[i * m + r]? = (f i)[r]? := by
  induction n with
  | zero => omega
  | succ n ih =>
      rw [List.range_succ, List.flatMap_append]
      by_cases h : i < n
      · rw [List.getElem?_append]
        rw [length_flatMap_const f m n hf]
        have hlt : i * m + r < n * m := flatten_lt h hr
        rw [if_pos hlt]
        exact ih h
      · have hin : i = n := by omega
        subst hin
        have hlen : ((List.range i).flatMap f).length = i * m := length_flatMap_const f m i hf
        have hge : ((List.range i).flatMap f).length ≤ i * m + r := by omega
        rw [List.getElem?_append_right hge, hlen]
        simp [List.flatMap]

/-! ## Specification side: multi-index window reduction (the claim's words) -/

/-- The element of batch `b`, channel `c` at spatial coordinates `(h, w, d)`
of the flat row-major tensor `X` of shape `[N, C, H, W, D]`. -/
def tensorAt (X : Nat → ℚ) (C H W D b c h w d : Nat) : ℚ :=
  X ((((b * C + c) * H + h) * W + w) * D + d)

/-- The specification value at output position `(b, c, ph, pw, pd)`: the
reduction of the input elements lying in the sliding window, placed by
stride, begin pad and dilation and clipped to the input extents. -/
def poolSpecValue (red : List ℚ → ℚ) (X : Nat → ℚ) (C : Nat) (t : TaskParams)
    (b c ph pw pd : Nat) : ℚ :=
  red ((windowCoords t.H t.kh t.sh t.ph0 t.dh ph).flatMap fun h =>
    (windowCoords t.W t.kw t.sw t.pw0 t.dw pw).flatMap fun w =>
      (windowCoords t.D t.kd t.sd t.pd0 t.dd pd).map fun d =>
        tensorAt X C t.H t.W t.D b c h w d)

/-- The task parameters the dispatch hands the per-channel tasks, given the
effective kernel, pads and dilations. -/
def dispatchParams (a : PoolAttrs) (kernel pads : List Nat) (dilAt : Nat → Nat)
    (shape : List Nat) : TaskParams :=
  handRolledParams kernel pads a.strideAt dilAt shape (setOutputSize a shape pads)

/-! ## pool.cc: the MLAS delegation path -/

/-- The `MLAS_POOLING_KIND` values pool.cc passes. -/
inductive MlasKind
  | maximumPooling
  | averagePoolingIncludePad
  | averagePoolingExcludePad
  deriving DecidableEq, Repr

/-- The arguments of the `MlasPool` call (pool.cc lines 139-143): null
kernel/pads/strides pointers are `none`. -/
structure MlasCallArgs where
  kind : MlasKind
  pooling_dims : Nat
  inputShape : List Nat
  kernelArg : Option (List Nat)
  padsArg : Option (List Nat)
  stridesArg : Option (List Nat)
  deriving DecidableEq, Repr

/-- Modelled from the spec: the reduction MLAS applies per window — maximum,
or mean with the divisor counting padding (the full kernel volume) or not. -/
def mlasReduce (kind : MlasKind) (kernelVolume : Nat) (l : List ℚ) : ℚ :=
  match kind with
  | MlasKind.maximumPooling => maxReduce l
  | MlasKind.averagePoolingIncludePad => l.sum / (kernelVolume : ℚ)
  | MlasKind.averagePoolingExcludePad => avgReduce l

/-- Modelled from the spec: `MlasPool` (the external MLAS library) computes
the sliding-window reduction over each channel; null kernel/pads/strides
mean global pooling: kernel = the whole spatial extent, zero pads, unit
strides. -/
def mlasPool (args : MlasCallArgs) (output_dims : List Nat) (X : Nat → ℚ) : List ℚ :=
  let kernel := args.kernelArg.getD (args.inputShape.drop 2)
  let pads := args.padsArg.getD (List.replicate (2 * kernel.length) 0)
  let strides := args.stridesArg.getD (List.replicate kernel.length 1)
  let t := handRolledParams kernel pads (fun i => strides.getD i 1) (fun _ => 1)
    args.inputShape output_dims
  RunLoopSeq (args.inputShape.getD 0 0 * args.inputShape.getD 1 0)
    fun c => taskSlice (mlasReduce args.kind (t.kh * t.kw * t.kd)) t fun i =>
      X (c * t.x_step + i)

/-- A successful `PoolBase::Compute`: the `MlasPool` call made (none when the
zero-size early return fired), the output shape, and the output data. -/
structure MlasOk where
  call : Option MlasCallArgs
  dims : List Nat
  data : List ℚ
  deriving DecidableEq, Repr

/-- `PoolBase::Compute` (pool.cc lines 110-146): rank check, pooling-rank
check, kernel-compatibility check (skipped under global pooling), zero-size
early return, then `MlasPool` with null kernel/pads/strides under global
pooling. -/
def poolBaseCompute (kind : MlasKind) (a : PoolAttrs) (shape : List Nat) (X : Nat → ℚ) :
    Except PoolErr MlasOk :=
  if shape.length < 3 then .error .fail
  else if shape.length - 2 > 3 then .error .invalidArgument
  else if ¬ a.global_pooling ∧ shape.length - 2 ≠ a.kernel_shape.length then .error .fail
  else
    let pads := a.pads
    let output_dims := setOutputSize a shape pads
    if output_dims.prod = 0 then .ok { call := none, dims := output_dims, data := [] }
    else
      let args : MlasCallArgs :=
        { kind := kind
          pooling_dims := shape.length - 2
          inputShape := shape
          kernelArg := if a.global_pooling then none else some a.kernel_shape
          padsArg := if a.global_pooling then none else some pads
          stridesArg := if a.global_pooling then none else some a.strides }
      .ok { call := some args, dims := output_dims, data := mlasPool args output_dims X }

/-- The `Pool<float, MaxPool<1>>::Compute` specialization (pool.cc lines
148-151): unconditional delegation to MLAS maximum pooling. -/
def poolFloatMaxCompute (a : PoolAttrs) (shape : List Nat) (X : Nat → ℚ) :
    Except PoolErr MlasOk :=
  poolBaseCompute MlasKind.maximumPooling a shape X

/-- The `Pool<float, AveragePool>::Compute` specialization (pool.cc lines
153-157): unconditional delegation to MLAS average pooling, include- or
exclude-pad by the attribute. -/
def poolFloatAvgCompute (a : PoolAttrs) (shape : List Nat) (X : Nat → ℚ) :
    Except PoolErr MlasOk :=
  poolBaseCompute
    (if a.count_include_pad then MlasKind.averagePoolingIncludePad
     else MlasKind.averagePoolingExcludePad) a shape X

/-- `need_dilation` (pool.cc lines 171-174 and the V18/V19 copies): some
dilation exceeds 1. -/
def needDilation (dilations : List Nat) : Bool :=
  dilations.any fun n => decide (n > 1)

/-- Which implementation a pooling `Compute` runs. -/
inductive ComputePath
  | viaMlas
  | viaLoop
  deriving DecidableEq, Repr

/-- The path `MaxPoolV8::ComputeImpl` takes (pool.cc lines 177-181): MLAS
exactly for float element type, a single output, row-major `storage_order`
and no dilation. -/
def maxPoolV8Path (isFloat : Bool) (outputDefsCount : Nat) (a : PoolAttrs) : ComputePath :=
  if isFloat = true ∧ outputDefsCount = 1 ∧ a.storage_order = 0 ∧
      needDilation a.dilations = false
  then ComputePath.viaMlas else ComputePath.viaLoop

/-- The path `AveragePoolV19<T>::Compute` takes: it computes `need_dilation`
(pool.cc lines 255-258) but never consults it and contains no MLAS call, so
every invocation runs the hand-rolled loop. -/
def averagePoolV19Path (isFloat : Bool) (dilations : List Nat) : ComputePath :=
  let _need_dilation := needDilation dilations
  ComputePath.viaLoop

/-- The path `LpPoolV18<T>::Compute` takes: `need_dilation` (pool.cc lines
330-333) is likewise dead, and there is no MLAS call. -/
def lpPoolV18Path (isFloat : Bool) (dilations : List Nat) : ComputePath :=
  let _need_dilation := needDilation dilations
  ComputePath.viaLoop

/-- `MaxPoolV8::ComputeImpl` (pool.cc lines 166-250): the MLAS shortcut when
the guard holds, otherwise the hand-rolled loop with the dilations
attribute.  The optional flattened-index output `I` is not modelled. -/
def maxPoolV8ComputeImpl (isFloat : Bool) (outputDefsCount : Nat) (a : PoolAttrs)
    (shape : List Nat) (X : Nat → ℚ) : Except PoolErr (MlasOk ⊕ PoolOk) :=
  if maxPoolV8Path isFloat outputDefsCount a = ComputePath.viaMlas then
    (poolBaseCompute MlasKind.maximumPooling a shape X).map Sum.inl
  else
    (handRolledCompute maxReduce (fun i => a.dilations.getD i 1) a a.kernel_shape a.pads
      shape X).map Sum.inr

/-! ## The parallel execution model for the channel fan-out

`ThreadPool::TryParallelFor` partitions `[0, total)` among workers; each
channel index is processed exactly once, in an arbitrary interleaving.  The
output buffer starts unwritten (`none` everywhere) and each task writes only
its own `y_step`-sized block. -/

/-- One channel task's effect on the output buffer: it writes its own block
`[c*y_step, (c+1)*y_step)` and leaves everything else unchanged. -/
def writeSlice (y_step : Nat) (sliceOf : Nat → List ℚ) (c : Nat)
    (buf : Nat → Option ℚ) : Nat → Option ℚ :=
  fun i => if c * y_step ≤ i ∧ i < (c + 1) * y_step then (sliceOf c)[i - c * y_step]?
    else buf i

/-- The channel tasks executed in the order the thread pool happens to run
them. -/
def RunLoopPar (y_step : Nat) (sliceOf : Nat → List ℚ) :
    List Nat → (Nat → Option ℚ) → (Nat → Option ℚ)
  | [], buf => buf
  | c :: rest, buf => RunLoopPar y_step sliceOf rest (writeSlice y_step sliceOf c buf)

/-! ## The hand-rolled dispatch places each window reduction correctly -/

theorem taskSlice_length (red : List ℚ → ℚ) (t : TaskParams) (xc : Nat → ℚ) :
    (taskSlice red t xc).length = t.y_step := by
  have h1 : ∀ ph, ((List.range t.PW).flatMap fun pw =>
      (List.range t.PD).map fun pd => taskValue red t xc ph pw pd).length = t.PW * t.PD := by
    intro ph
    refine length_flatMap_const _ _ _ ?_
    intro j
    simp
  calc (taskSlice red t xc).length
      = t.PH * (t.PW * t.PD) := length_flatMap_const _ _ _ h1
    _ = t.y_step := by rw [TaskParams.y_step, Nat.mul_assoc]

theorem taskSlice_getElem? (red : List ℚ → ℚ) (t : TaskParams) (xc : Nat → ℚ)
    (ph pw pd : Nat) (hph : ph < t.PH) (hpw : pw < t.PW) (hpd : pd < t.PD) :
    (taskSlice red t xc)[(ph * t.PW + pw) * t.PD + pd]? =
      some (taskValue red t xc ph pw pd) := by
  have hlen : ∀ j, ((List.range t.PW).flatMap fun pw =>
      (List.range t.PD).map fun pd => taskValue red t xc j pw pd).length = t.PW * t.PD := by
    intro j
    refine length_flatMap_const _ _ _ ?_
    intro j'
    simp
  have hidx : (ph * t.PW + pw) * t.PD + pd = ph * (t.PW * t.PD) + (pw * t.PD + pd) := by ring
  rw [taskSlice, hidx,
    flatMap_range_getElem? _ (t.PW * t.PD) t.PH ph (pw * t.PD + pd) hlen hph
      (flatten_lt hpw hpd),
    flatMap_range_getElem? _ t.PD t.PW pw pd (fun j => by simp) hpw hpd,
    List.getElem?_map, List.getElem?_range hpd]
  rfl

theorem taskValue_slice (red : List ℚ → ℚ) (t : TaskParams) (X : Nat → ℚ)
    (C b c ph pw pd : Nat) :
    taskValue red t (fun i => X ((b * C + c) * t.x_step + i)) ph pw pd =
      poolSpecValue red X C t b c ph pw pd := by
  unfold taskValue poolSpecValue TaskParams.window
  congr 1
  rw [List.map_flatMap]
  refine List.flatMap_congr ?_
  intro h hh
  rw [List.map_flatMap]
  refine List.flatMap_congr ?_
  intro w hw
  rw [List.map_map]
  refine List.map_congr_left ?_
  intro d hd
  show X ((b * C + c) * t.x_step + ((h * t.W + w) * t.D + d)) = tensorAt X C t.H t.W t.D b c h w d
  rw [tensorAt, TaskParams.x_step]
  congr 1
  ring

theorem handRolledCompute_ok_getElem? (red : List ℚ → ℚ) (dilAt : Nat → Nat)
    (a : PoolAttrs) (kernel pads : List Nat) (shape : List Nat) (X : Nat → ℚ)
    (h3 : ¬ shape.length < 3)
    (hk : kernel.length = 1 ∨ kernel.length = 2 ∨ kernel.length = 3)
    (b c ph pw pd : Nat) (hb : b < shape.getD 0 0) (hc : c < shape.getD 1 0)
    (hph : ph < (dispatchParams a kernel pads dilAt shape).PH)
    (hpw : pw < (dispatchParams a kernel pads dilAt shape).PW)
    (hpd : pd < (dispatchParams a kernel pads dilAt shape).PD) :
    ∃ r, handRolledCompute red dilAt a kernel pads shape X = Except.ok r ∧
      r.taskDim = kernel.length ∧ r.dims = setOutputSize a shape pads ∧
      r.data[(b * shape.getD 1 0 + c) * (dispatchParams a kernel pads dilAt shape).y_step +
          ((ph * (dispatchParams a kernel pads dilAt shape).PW + pw) *
            (dispatchParams a kernel pads dilAt shape).PD + pd)]? =
        some (poolSpecValue red X (shape.getD 1 0) (dispatchParams a kernel pads dilAt shape)
          b c ph pw pd) := by
  set t := dispatchParams a kernel pads dilAt shape with ht
  have heq : handRolledCompute red dilAt a kernel pads shape X = Except.ok
      { taskDim := kernel.length
        dims := setOutputSize a shape pads
        data := RunLoopSeq (shape.getD 0 0 * shape.getD 1 0)
          fun c => taskSlice red t fun i => X (c * t.x_step + i) } := by
    simp only [handRolledCompute, if_neg h3, if_pos hk]
    rfl
  refine ⟨_, heq, rfl, rfl, ?_⟩
  · show (RunLoopSeq (shape.getD 0 0 * shape.getD 1 0)
        fun c => taskSlice red t fun i => X (c * t.x_step + i))[_]? = _
    have hy : (ph * t.PW + pw) * t.PD + pd < t.y_step := by
      rw [TaskParams.y_step]
      exact flatten_lt (flatten_lt hph hpw) hpd
    rw [RunLoopSeq,
      flatMap_range_getElem? _ t.y_step _ (b * shape.getD 1 0 + c)
        ((ph * t.PW + pw) * t.PD + pd) (fun j => taskSlice_length red t _)
        (flatten_lt hb hc) hy,
      taskSlice_getElem? red t _ ph pw pd hph hpw hpd,
      taskValue_slice red t X (shape.getD 1 0) b c ph pw pd]

/-- The hand-rolled computation `compute`, run with reduction `red` on the
effective kernel/pads/dilations, writes at every output position the window
reduction of the specification. -/
def windowsPlacedCorrectly (red : List ℚ → ℚ) (dilAt : Nat → Nat) (a : PoolAttrs)
    (kernel pads : List Nat) (shape : List Nat) (X : Nat → ℚ)
    (compute : Except PoolErr PoolOk) : Prop :=
  ∀ b c ph pw pd : Nat,
    b < shape.getD 0 0 → c < shape.getD 1 0 →
    ph < (dispatchParams a kernel pads dilAt shape).PH →
    pw < (dispatchParams a kernel pads dilAt shape).PW →
    pd < (dispatchParams a kernel pads dilAt shape).PD →
    ∃ r, compute = Except.ok r ∧ r.taskDim = kernel.length ∧
      r.data[(b * shape.getD 1 0 + c) * (dispatchParams a kernel pads dilAt shape).y_step +
          ((ph * (dispatchParams a kernel pads dilAt shape).PW + pw) *
            (dispatchParams a kernel pads dilAt shape).PD + pd)]? =
        some (poolSpecValue red X (shape.getD 1 0) (dispatchParams a kernel pads dilAt shape)
          b c ph pw pd)

theorem handRolledCompute_windows (red : List ℚ → ℚ) (dilAt : Nat → Nat) (a : PoolAttrs)
    (kernel pads : List Nat) (shape : List Nat) (X : Nat → ℚ)
    (h3 : ¬ shape.length < 3)
    (hk : kernel.length = 1 ∨ kernel.length = 2 ∨ kernel.length = 3) :
    windowsPlacedCorrectly red dilAt a kernel pads shape X
      (handRolledCompute red dilAt a kernel pads shape X) := by
  intro b c ph pw pd hb hc hph hpw hpd
  obtain ⟨r, heq, htd, _, hget⟩ :=
    handRolledCompute_ok_getElem? red dilAt a kernel pads shape X h3 hk b c ph pw pd
      hb hc hph hpw hpd
  exact ⟨r, heq, htd, hget⟩

/-- C1: for rank-(2+n) inputs with n in {1,2,3} and any kernel, stride, pad
and dilation attributes, the hand-rolled kernels — `Pool<T,PoolType>::Compute`
for any reduction functor, the loop path of `MaxPoolV8::ComputeImpl`
(maximum), `AveragePoolV19<T>::Compute` (arithmetic mean) and
`LpPoolV18<T>::Compute` (p-norm) — write at each output position the
reduction of the input elements in the corresponding sliding window, placed
by kernel size, stride, padding and dilation. -/
theorem poolCompute_window_reduction :
    (∀ (red : List ℚ → ℚ) (a : PoolAttrs) (shape : List Nat) (X : Nat → ℚ),
      a.global_pooling = false → ¬ shape.length < 3 →
      (a.kernel_shape.length = 1 ∨ a.kernel_shape.length = 2 ∨ a.kernel_shape.length = 3) →
      windowsPlacedCorrectly red (fun _ => 1) a a.kernel_shape a.pads shape X
        (poolCompute red a shape X)) ∧
    (∀ (isFloat : Bool) (outputDefsCount : Nat) (a : PoolAttrs) (shape : List Nat)
       (X : Nat → ℚ),
      maxPoolV8Path isFloat outputDefsCount a = ComputePath.viaLoop →
      ¬ shape.length < 3 →
      (a.kernel_shape.length = 1 ∨ a.kernel_shape.length = 2 ∨ a.kernel_shape.length = 3) →
      maxPoolV8ComputeImpl isFloat outputDefsCount a shape X =
        (handRolledCompute maxReduce (fun i => a.dilations.getD i 1) a a.kernel_shape a.pads
          shape X).map Sum.inr ∧
      windowsPlacedCorrectly maxReduce (fun i => a.dilations.getD i 1) a a.kernel_shape a.pads
        shape X
        (handRolledCompute maxReduce (fun i => a.dilations.getD i 1) a a.kernel_shape a.pads
          shape X)) ∧
    (∀ (a : PoolAttrs) (shape : List Nat) (X : Nat → ℚ),
      ¬ shape.length < 3 →
      (a.kernel_shape.length = 1 ∨ a.kernel_shape.length = 2 ∨ a.kernel_shape.length = 3) →
      windowsPlacedCorrectly avgReduce (fun i => a.dilations.getD i 1) a a.kernel_shape a.pads
        shape X (averagePoolV19Compute a shape X)) ∧
    (∀ (root : ℚ → ℚ) (p : Nat) (a : PoolAttrs) (shape : List Nat) (X : Nat → ℚ),
      ¬ shape.length < 3 →
      (a.kernel_shape.length = 1 ∨ a.kernel_shape.length = 2 ∨ a.kernel_shape.length = 3) →
      windowsPlacedCorrectly (lpReduce root p) (fun i => a.dilations.getD i 1) a
        a.kernel_shape a.pads shape X (lpPoolV18Compute root p a shape X)) := by
  refine ⟨?_, ?_, ?_, ?_⟩
  · intro red a shape X hg h3 hk
    have hpc : poolCompute red a shape X =
        handRolledCompute red (fun _ => 1) a a.kernel_shape a.pads shape X := by
      simp [poolCompute, hg]
    rw [hpc]
    exact handRolledCompute_windows red (fun _ => 1) a a.kernel_shape a.pads shape X h3 hk
  · intro isFloat outputDefsCount a shape X hp h3 hk
    have himpl : maxPoolV8ComputeImpl isFloat outputDefsCount a shape X =
        (handRolledCompute maxReduce (fun i => a.dilations.getD i 1) a a.kernel_shape a.pads
          shape X).map Sum.inr := by
      rw [maxPoolV8ComputeImpl, hp]
      simp
    exact ⟨himpl, handRolledCompute_windows _ _ a a.kernel_shape a.pads shape X h3 hk⟩
  · intro a shape X h3 hk
    exact handRolledCompute_windows _ _ a a.kernel_shape a.pads shape X h3 hk
  · intro root p a shape X h3 hk
    exact handRolledCompute_windows _ _ a a.kernel_shape a.pads shape X h3 hk

/-! ## C4: status codes and dispatch of the Compute entry points -/

theorem handRolledCompute_rank_fail (red : List ℚ → ℚ) (dilAt : Nat → Nat) (a : PoolAttrs)
    (kernel pads : List Nat) (shape : List Nat) (X : Nat → ℚ)
    (h3 : shape.length < 3) :
    handRolledCompute red dilAt a kernel pads shape X = Except.error PoolErr.fail := by
  simp [handRolledCompute, h3]

theorem handRolledCompute_bad_kernel (red : List ℚ → ℚ) (dilAt : Nat → Nat) (a : PoolAttrs)
    (kernel pads : List Nat) (shape : List Nat) (X : Nat → ℚ)
    (h3 : ¬ shape.length < 3)
    (hk : ¬ (kernel.length = 1 ∨ kernel.length = 2 ∨ kernel.length = 3)) :
    handRolledCompute red dilAt a kernel pads shape X = Except.error PoolErr.invalidArgument := by
  simp only [handRolledCompute, if_neg h3, if_neg hk]

theorem handRolledCompute_ok (red : List ℚ → ℚ) (dilAt : Nat → Nat) (a : PoolAttrs)
    (kernel pads : List Nat) (shape : List Nat) (X : Nat → ℚ)
    (h3 : ¬ shape.length < 3)
    (hk : kernel.length = 1 ∨ kernel.length = 2 ∨ kernel.length = 3) :
    ∃ r, handRolledCompute red dilAt a kernel pads shape X = Except.ok r ∧
      r.taskDim = kernel.length ∧ r.dims = setOutputSize a shape pads := by
  have heq : handRolledCompute red dilAt a kernel pads shape X = Except.ok
      { taskDim := kernel.length
        dims := setOutputSize a shape pads
        data := RunLoopSeq (shape.getD 0 0 * shape.getD 1 0)
          fun c => taskSlice red (dispatchParams a kernel pads dilAt shape)
            fun i => X (c * (dispatchParams a kernel pads dilAt shape).x_step + i) } := by
    simp only [handRolledCompute, if_neg h3, if_pos hk]
    rfl
  exact ⟨_, heq, rfl, rfl⟩

/-- C4: every pooling Compute entry point fails without computing anything on
inputs of rank below 3; the hand-rolled entry points return
`INVALID_ARGUMENT` when the kernel rank is not 1, 2 or 3, and dispatch the
task of exactly the kernel rank otherwise; `PoolBase::Compute` returns
`INVALID_ARGUMENT` when the input rank minus 2 exceeds 3, and otherwise
(validly configured) returns OK, calling `MlasPool` with `pooling_dims` equal
to the input rank minus 2 unless the output is empty. -/
theorem poolCompute_status_dispatch :
    (∀ (red : List ℚ → ℚ) (root : ℚ → ℚ) (p : Nat) (isFloat : Bool)
       (outputDefsCount : Nat) (kind : MlasKind) (a : PoolAttrs) (shape : List Nat)
       (X : Nat → ℚ), shape.length < 3 →
      poolCompute red a shape X = Except.error PoolErr.fail ∧
      averagePoolV19Compute a shape X = Except.error PoolErr.fail ∧
      lpPoolV18Compute root p a shape X = Except.error PoolErr.fail ∧
      maxPoolV8ComputeImpl isFloat outputDefsCount a shape X = Except.error PoolErr.fail ∧
      poolBaseCompute kind a shape X = Except.error PoolErr.fail) ∧
    (∀ (red : List ℚ → ℚ) (root : ℚ → ℚ) (p : Nat) (a : PoolAttrs) (shape : List Nat)
       (X : Nat → ℚ), ¬ shape.length < 3 → a.global_pooling = false →
      ¬ (a.kernel_shape.length = 1 ∨ a.kernel_shape.length = 2 ∨
         a.kernel_shape.length = 3) →
      poolCompute red a shape X = Except.error PoolErr.invalidArgument ∧
      averagePoolV19Compute a shape X = Except.error PoolErr.invalidArgument ∧
      lpPoolV18Compute root p a shape X = Except.error PoolErr.invalidArgument) ∧
    (∀ (kind : MlasKind) (a : PoolAttrs) (shape : List Nat) (X : Nat → ℚ),
      ¬ shape.length < 3 → shape.length - 2 > 3 →
      poolBaseCompute kind a shape X = Except.error PoolErr.invalidArgument) ∧
    (∀ (red : List ℚ → ℚ) (a : PoolAttrs) (shape : List Nat) (X : Nat → ℚ),
      ¬ shape.length < 3 → a.global_pooling = false →
      (a.kernel_shape.length = 1 ∨ a.kernel_shape.length = 2 ∨
       a.kernel_shape.length = 3) →
      ∃ r, poolCompute red a shape X = Except.ok r ∧
        r.taskDim = a.kernel_shape.length) ∧
    (∀ (kind : MlasKind) (a : PoolAttrs) (shape : List Nat) (X : Nat → ℚ),
      ¬ shape.length < 3 → ¬ shape.length - 2 > 3 →
      (a.global_pooling = true ∨ shape.length - 2 = a.kernel_shape.length) →
      ∃ r, poolBaseCompute kind a shape X = Except.ok r ∧
        (r.dims.prod ≠ 0 →
          ∃ args, r.call = some args ∧ args.pooling_dims = shape.length - 2)) := by
  refine ⟨?_, ?_, ?_, ?_, ?_⟩
  · intro red root p isFloat outputDefsCount kind a shape X h3
    refine ⟨?_, ?_, ?_, ?_, ?_⟩
    · rw [poolCompute]
      exact handRolledCompute_rank_fail _ _ _ _ _ _ _ h3
    · exact handRolledCompute_rank_fail _ _ _ _ _ _ _ h3
    · exact handRolledCompute_rank_fail _ _ _ _ _ _ _ h3
    · rw [maxPoolV8ComputeImpl]
      by_cases hp : maxPoolV8Path isFloat outputDefsCount a = ComputePath.viaMlas
      · rw [if_pos hp]
        simp [poolBaseCompute, h3, Except.map]
      · rw [if_neg hp, handRolledCompute_rank_fail _ _ _ _ _ _ _ h3]
        rfl
    · simp [poolBaseCompute, h3]
  · intro red root p a shape X h3 hg hk
    have hker : (if a.global_pooling then shape.drop 2 else a.kernel_shape) = a.kernel_shape := by
      simp [hg]
    refine ⟨?_, ?_, ?_⟩
    · rw [poolCompute]
      simp only [hg, Bool.false_eq_true, if_false]
      exact handRolledCompute_bad_kernel _ _ _ _ _ _ _ h3 hk
    · exact handRolledCompute_bad_kernel _ _ _ _ _ _ _ h3 hk
    · exact handRolledCompute_bad_kernel _ _ _ _ _ _ _ h3 hk
  · intro kind a shape X h3 hdims
    simp [poolBaseCompute, h3, hdims]
  · intro red a shape X h3 hg hk
    rw [poolCompute]
    simp only [hg, Bool.false_eq_true, if_false]
    obtain ⟨r, heq, htd, _⟩ := handRolledCompute_ok red (fun _ => 1) a a.kernel_shape a.pads
      shape X h3 hk
    exact ⟨r, heq, htd⟩
  · intro kind a shape X h3 hdims hcfg
    have hmismatch : ¬ (¬ a.global_pooling = true ∧
        shape.length - 2 ≠ a.kernel_shape.length) := by
      rcases hcfg with h | h
      · intro hcontra
        exact hcontra.1 h
      · intro hcontra
        exact hcontra.2 h
    by_cases hprod : (setOutputSize a shape a.pads).prod = 0
    · have heq : poolBaseCompute kind a shape X = Except.ok
          { call := none, dims := setOutputSize a shape a.pads, data := [] } := by
        rw [poolBaseCompute, if_neg h3, if_neg hdims, if_neg hmismatch]
        simp only [if_pos hprod]
      refine ⟨_, heq, ?_⟩
      intro hne
      exact absurd hprod hne
    · have heq : poolBaseCompute kind a shape X = Except.ok
          { call := some
              { kind := kind
                pooling_dims := shape.length - 2
                inputShape := shape
                kernelArg := if a.global_pooling = true then none else some a.kernel_shape
                padsArg := if a.global_pooling = true then none else some a.pads
                stridesArg := if a.global_pooling = true then none else some a.strides }
            dims := setOutputSize a shape a.pads
            data := mlasPool
              { kind := kind
                pooling_dims := shape.length - 2
                inputShape := shape
                kernelArg := if a.global_pooling = true then none else some a.kernel_shape
                padsArg := if a.global_pooling = true then none else some a.pads
                stridesArg := if a.global_pooling = true then none else some a.strides }
              (setOutputSize a shape a.pads) X } := by
        rw [poolBaseCompute, if_neg h3, if_neg hdims, if_neg hmismatch]
        simp only [if_neg hprod]
      refine ⟨_, heq, ?_⟩
      intro _
      exact ⟨_, rfl, rfl⟩

/-! ## C2: which Compute entry points actually delegate to MLAS -/

/-- C2 counterexample: the claim says that for float input, no index output
and all dilations 1, `AveragePoolV19<float>::Compute` and
`LpPoolV18<float>::Compute` take the MLAS path; but neither contains an MLAS
call at all — at float element type with dilations `[1, 1]` both run the
hand-rolled loop. -/
theorem averagePool_lpPool_never_mlas :
    averagePoolV19Path true [1, 1] = ComputePath.viaLoop ∧
    averagePoolV19Path true [1, 1] ≠ ComputePath.viaMlas ∧
    lpPoolV18Path true [1, 1] = ComputePath.viaLoop ∧
    lpPoolV18Path true [1, 1] ≠ ComputePath.viaMlas :=
  ⟨rfl, by decide, rfl, by decide⟩

/-- C2 (amended): `MaxPoolV8::ComputeImpl` takes the MLAS path exactly for
float element type with a single output, row-major storage order and all
dilations 1, and on that path delegates to `PoolBase::Compute`; the
`Pool<float, MaxPool<1>>` and `Pool<float, AveragePool>` specializations
always delegate to MLAS; `AveragePoolV19` and `LpPoolV18` always run the
hand-rolled loop — their `need_dilation` is dead code and they never call
MLAS. -/
theorem mlasDelegation_paths :
    (∀ (isFloat : Bool) (outputDefsCount : Nat) (a : PoolAttrs),
      maxPoolV8Path isFloat outputDefsCount a = ComputePath.viaMlas ↔
        (isFloat = true ∧ outputDefsCount = 1 ∧ a.storage_order = 0 ∧
          needDilation a.dilations = false)) ∧
    (∀ (isFloat : Bool) (dilations : List Nat),
      averagePoolV19Path isFloat dilations = ComputePath.viaLoop) ∧
    (∀ (isFloat : Bool) (dilations : List Nat),
      lpPoolV18Path isFloat dilations = ComputePath.viaLoop) ∧
    (∀ (a : PoolAttrs) (shape : List Nat) (X : Nat → ℚ),
      poolFloatMaxCompute a shape X = poolBaseCompute MlasKind.maximumPooling a shape X) ∧
    (∀ (a : PoolAttrs) (shape : List Nat) (X : Nat → ℚ),
      poolFloatAvgCompute a shape X = poolBaseCompute
        (if a.count_include_pad then MlasKind.averagePoolingIncludePad
         else MlasKind.averagePoolingExcludePad) a shape X) ∧
    (∀ (isFloat : Bool) (outputDefsCount : Nat) (a : PoolAttrs) (shape : List Nat)
       (X : Nat → ℚ),
      maxPoolV8Path isFloat outputDefsCount a = ComputePath.viaMlas →
      maxPoolV8ComputeImpl isFloat outputDefsCount a shape X =
        (poolBaseCompute MlasKind.maximumPooling a shape X).map Sum.inl) := by
  refine ⟨?_, fun _ _ => rfl, fun _ _ => rfl, fun _ _ _ => rfl, fun _ _ _ => rfl, ?_⟩
  · intro isFloat outputDefsCount a
    constructor
    · intro h
      by_contra hcontra
      rw [maxPoolV8Path, if_neg hcontra] at h
      exact ComputePath.noConfusion h
    · intro h
      rw [maxPoolV8Path, if_pos h]
  · intro isFloat outputDefsCount a shape X hp
    rw [maxPoolV8ComputeImpl, if_pos hp]

/-! ## C9: global pooling overrides the explicit attributes -/

theorem strideAt_global (a : PoolAttrs) (hg : a.global_pooling = true) :
    a.strideAt = fun _ => 1 := by
  funext i
  simp [PoolAttrs.strideAt, hg]

theorem setOutputSize_global (a : PoolAttrs) (hg : a.global_pooling = true)
    (shape pads : List Nat) :
    setOutputSize a shape pads = shape.take 2 ++ (shape.drop 2).map fun _ => 1 := by
  simp [setOutputSize, hg]

/-- C9: with `global_pooling` set, `Pool<T,PoolType>::Compute` replaces the
kernel by the input's spatial extents and every pad by 0 before the output
size is computed, and its result is unchanged under any change of the
`kernel_shape`, `pads` and `strides` (indeed any) attributes; on the MLAS
path the `MlasPool` call receives null kernel, pads and strides pointers,
and the result of `PoolBase::Compute` is likewise independent of those
attributes. -/
theorem globalPooling_overrides_attrs :
    (∀ (red : List ℚ → ℚ) (a : PoolAttrs) (shape : List Nat) (X : Nat → ℚ),
      a.global_pooling = true →
      poolCompute red a shape X = handRolledCompute red (fun _ => 1) a (shape.drop 2)
        (List.replicate (shape.length - 2) 0) shape X) ∧
    (∀ (red : List ℚ → ℚ) (a a' : PoolAttrs) (shape : List Nat) (X : Nat → ℚ),
      a.global_pooling = true → a'.global_pooling = true →
      poolCompute red a shape X = poolCompute red a' shape X) ∧
    (∀ (kind : MlasKind) (a : PoolAttrs) (shape : List Nat) (X : Nat → ℚ)
       (r : MlasOk) (args : MlasCallArgs),
      a.global_pooling = true →
      poolBaseCompute kind a shape X = Except.ok r → r.call = some args →
      args.kernelArg = none ∧ args.padsArg = none ∧ args.stridesArg = none) ∧
    (∀ (kind : MlasKind) (a a' : PoolAttrs) (shape : List Nat) (X : Nat → ℚ),
      a.global_pooling = true → a'.global_pooling = true →
      poolBaseCompute kind a shape X = poolBaseCompute kind a' shape X) := by
  refine ⟨?_, ?_, ?_, ?_⟩
  · intro red a shape X hg
    simp [poolCompute, hg, List.length_drop]
  · intro red a a' shape X hg hg'
    have h1 : poolCompute red a shape X = handRolledCompute red (fun _ => 1) a (shape.drop 2)
        (List.replicate (shape.length - 2) 0) shape X := by
      simp [poolCompute, hg, List.length_drop]
    have h1' : poolCompute red a' shape X = handRolledCompute red (fun _ => 1) a' (shape.drop 2)
        (List.replicate (shape.length - 2) 0) shape X := by
      simp [poolCompute, hg', List.length_drop]
    rw [h1, h1']
    simp only [handRolledCompute, handRolledParams, setOutputSize_global a hg,
      setOutputSize_global a' hg', strideAt_global a hg, strideAt_global a' hg']
  · intro kind a shape X r args hg heq hcall
    by_cases h3 : shape.length < 3
    · simp [poolBaseCompute, h3] at heq
    · by_cases hdims : shape.length - 2 > 3
      · simp [poolBaseCompute, h3, hdims] at heq
      · rw [poolBaseCompute, if_neg h3, if_neg hdims, if_neg (by simp [hg])] at heq
        by_cases hprod : (setOutputSize a shape a.pads).prod = 0
        · simp only [if_pos hprod] at heq
          cases heq
          simp at hcall
        · simp only [if_neg hprod] at heq
          cases heq
          simp only [MlasOk.mk.injEq] at hcall
          cases hcall
          simp [hg]
  · intro kind a a' shape X hg hg'
    rw [poolBaseCompute, poolBaseCompute]
    simp [setOutputSize_global a hg, setOutputSize_global a' hg', hg, hg']

/-! ## C3: the channel fan-out is disjoint and order-independent -/

theorem handRolledCompute_eq_ok (red : List ℚ → ℚ) (dilAt : Nat → Nat) (a : PoolAttrs)
    (kernel pads : List Nat) (shape : List Nat) (X : Nat → ℚ)
    (h3 : ¬ shape.length < 3)
    (hk : kernel.length = 1 ∨ kernel.length = 2 ∨ kernel.length = 3) :
    handRolledCompute red dilAt a kernel pads shape X = Except.ok
      { taskDim := kernel.length
        dims := setOutputSize a shape pads
        data := RunLoopSeq (shape.getD 0 0 * shape.getD 1 0)
          fun c => taskSlice red (dispatchParams a kernel pads dilAt shape)
            fun i => X (c * (dispatchParams a kernel pads dilAt shape).x_step + i) } := by
  simp only [handRolledCompute, if_neg h3, if_pos hk]
  rfl

theorem windowCoords_mem_lt (dim k s pB d p : Nat) :
    ∀ x ∈ windowCoords dim k s pB d p, x < dim := by
  intro x hx
  simp only [windowCoords, List.mem_filterMap, List.mem_range] at hx
  obtain ⟨j, _, hj⟩ := hx
  by_cases hc : 0 ≤ ((p * s + j * d : Nat) : Int) - (pB : Int) ∧
      ((p * s + j * d : Nat) : Int) - (pB : Int) < (dim : Int)
  · rw [if_pos hc] at hj
    have hx' := Option.some.inj hj
    omega
  · rw [if_neg hc] at hj
    exact Option.noConfusion hj

theorem window_mem_lt (t : TaskParams) (ph pw pd : Nat) :
    ∀ j ∈ t.window ph pw pd, j < t.x_step := by
  intro j hj
  rw [TaskParams.window, List.mem_flatMap] at hj
  obtain ⟨h, hh, hj⟩ := hj
  rw [List.mem_flatMap] at hj
  obtain ⟨w, hw, hj⟩ := hj
  rw [List.mem_map] at hj
  obtain ⟨d, hd, rfl⟩ := hj
  have h1 := windowCoords_mem_lt _ _ _ _ _ _ h hh
  have h2 := windowCoords_mem_lt _ _ _ _ _ _ w hw
  have h3 := windowCoords_mem_lt _ _ _ _ _ _ d hd
  rw [TaskParams.x_step]
  exact flatten_lt (flatten_lt h1 h2) h3

theorem runLoopPar_apply (y : Nat) (hy : 0 < y) (sliceOf : Nat → List ℚ)
    (order : List Nat) (buf : Nat → Option ℚ) (i : Nat) :
    RunLoopPar y sliceOf order buf i =
      if i / y ∈ order then (sliceOf (i / y))[i % y]? else buf i := by
  induction order generalizing buf with
  | nil => simp [RunLoopPar]
  | cons c rest ih =>
      rw [RunLoopPar, ih]
      by_cases hmem : i / y ∈ rest
      · rw [if_pos hmem, if_pos (List.mem_cons_of_mem c hmem)]
      · rw [if_neg hmem]
        by_cases hceq : c = i / y
        · have h1 : c * y ≤ i := by
            rw [hceq]
            exact Nat.div_mul_le_self i y
          have h2 : i < (c + 1) * y := by
            rw [hceq]
            have e := Nat.div_add_mod i y
            have hm := Nat.mod_lt i hy
            calc i = y * (i / y) + i % y := e.symm
              _ < y * (i / y) + y := Nat.add_lt_add_left hm _
              _ = (i / y + 1) * y := by ring
          have h3 : i - c * y = i % y := by
            have e := Nat.div_add_mod i y
            rw [Nat.mul_comm] at e
            rw [hceq]
            omega
          simp only [writeSlice]
          rw [if_pos ⟨h1, h2⟩, h3, hceq,
            if_pos (show i / y ∈ i / y :: rest from List.mem_cons_self _ _)]
        · have hcond : ¬ (c * y ≤ i ∧ i < (c + 1) * y) := by
            intro hcontra
            exact hceq (Nat.div_eq_of_lt_le hcontra.1 hcontra.2).symm
          have hnot : i / y ∉ c :: rest := by
            intro hmc
            rcases List.mem_cons.mp hmc with h | h
            · exact hceq h.symm
            · exact hmem h
          simp only [writeSlice]
          rw [if_neg hcond, if_neg hnot]

/-- C3: `Pool::Compute` fans the work out into exactly `N*C` per-channel
tasks laid out at `y_step`-sized output blocks; each task reads only its own
`x_step`-sized input slice; and however the thread pool orders the `N*C`
tasks (any permutation), the written buffer agrees everywhere with the
sequential result. -/
theorem poolParallel_fanout_order_independent :
    (∀ (red : List ℚ → ℚ) (a : PoolAttrs) (shape : List Nat) (X : Nat → ℚ),
      a.global_pooling = false → ¬ shape.length < 3 →
      (a.kernel_shape.length = 1 ∨ a.kernel_shape.length = 2 ∨
       a.kernel_shape.length = 3) →
      ∃ r, poolCompute red a shape X = Except.ok r ∧
        r.data = RunLoopSeq (shape.getD 0 0 * shape.getD 1 0)
          (fun c => taskSlice red (dispatchParams a a.kernel_shape a.pads (fun _ => 1) shape)
            fun i => X (c * (dispatchParams a a.kernel_shape a.pads (fun _ => 1) shape).x_step
              + i)) ∧
        r.data.length = (shape.getD 0 0 * shape.getD 1 0) *
          (dispatchParams a a.kernel_shape a.pads (fun _ => 1) shape).y_step) ∧
    (∀ (red : List ℚ → ℚ) (t : TaskParams) (X X' : Nat → ℚ) (c : Nat),
      (∀ i, i < t.x_step → X (c * t.x_step + i) = X' (c * t.x_step + i)) →
      taskSlice red t (fun i => X (c * t.x_step + i)) =
        taskSlice red t (fun i => X' (c * t.x_step + i))) ∧
    (∀ (y total : Nat) (sliceOf : Nat → List ℚ) (order : List Nat) (i : Nat),
      0 < y → (∀ c, (sliceOf c).length = y) → order.Perm (List.range total) →
      RunLoopPar y sliceOf order (fun _ => none) i =
        if i < total * y then (RunLoopSeq total sliceOf)[i]? else none) := by
  refine ⟨?_, ?_, ?_⟩
  · intro red a shape X hg h3 hk
    have hpc : poolCompute red a shape X =
        handRolledCompute red (fun _ => 1) a a.kernel_shape a.pads shape X := by
      simp [poolCompute, hg]
    rw [hpc, handRolledCompute_eq_ok _ _ _ _ _ _ _ h3 hk]
    refine ⟨_, rfl, rfl, ?_⟩
    rw [RunLoopSeq]
    exact length_flatMap_const _ _ _ fun j => taskSlice_length _ _ _
  · intro red t X X' c hagree
    rw [taskSlice, taskSlice]
    refine List.flatMap_congr ?_
    intro ph _
    refine List.flatMap_congr ?_
    intro pw _
    refine List.map_congr_left ?_
    intro pd _
    rw [taskValue, taskValue]
    congr 1
    refine List.map_congr_left ?_
    intro j hj
    exact hagree j (window_mem_lt t ph pw pd j hj)
  · intro y total sliceOf order i hy hlen hperm
    rw [runLoopPar_apply y hy]
    by_cases hin : i < total * y
    · have hdiv : i / y < total := (Nat.div_lt_iff_lt_mul hy).mpr hin
      have hmem : i / y ∈ order := hperm.mem_iff.mpr (List.mem_range.mpr hdiv)
      rw [if_pos hmem, if_pos hin]
      have hidx : i = (i / y) * y + i % y := by
        have e := Nat.div_add_mod i y
        rw [Nat.mul_comm] at e
        omega
      rw [RunLoopSeq]
      conv_rhs => rw [hidx]
      exact (flatMap_range_getElem? sliceOf y total (i / y) (i % y) hlen hdiv
        (Nat.mod_lt i hy)).symm
    · have hnotmem : i / y ∉ order := by
        intro hmem
        have hlt := List.mem_range.mp (hperm.mem_iff.mp hmem)
        exact hin ((Nat.div_lt_iff_lt_mul hy).mp hlt)
      rw [if_neg hnotmem, if_neg hin]

/-- C1 witness: `AveragePoolV19` on the concrete input `[3, 5]` of shape
`[1,1,2]` with kernel `[2]`, stride 1, no pads or dilation: output position 0
holds the window reduction. -/
theorem poolCompute_window_reduction_witness :
    ∃ r, averagePoolV19Compute ⟨false, [2], [0, 0], [1], [1], false, 0⟩ [1, 1, 2]
        (fun i => if i = 0 then 3 else 5) = Except.ok r ∧
      r.taskDim = 1 ∧
      r.data[0]? = some (poolSpecValue avgReduce (fun i => if i = 0 then 3 else 5) 1
        (dispatchParams ⟨false, [2], [0, 0], [1], [1], false, 0⟩ [2] [0, 0]
          (fun i => ([1] : List Nat).getD i 1) [1, 1, 2]) 0 0 0 0 0) := by
  have h := poolCompute_window_reduction.2.2.1 ⟨false, [2], [0, 0], [1], [1], false, 0⟩
    [1, 1, 2] (fun i => if i = 0 then 3 else 5) (by decide) (by decide)
  have h0 := h 0 0 0 0 0 (by decide) (by decide) (by decide) (by decide) (by decide)
  simpa using h0
